import Mathlib

set_option maxHeartbeats 1000000

/-!
Shallow embedding of hooks/tk-multi-publish2/basic/collector.py
(HoudiniSessionCollector) and proofs about its collection routines.

The host surface (Houdini scene graph, toolkit engine apps, the base
collector class) is modelled as an explicit environment record; each
collection routine becomes a pure function from that environment to the
items it creates, the ordered trace of observable actions it performs,
the nodes-collected flag it sets, and the exception it raises, if any.
-/

namespace TkHoudini

/-- Python exception values distinguished by the handlers in the hook:
AttributeError (the only type caught by the cache, alembic, fbx and
mantra collectors), NameError (raised on an unbound local variable) and
any other exception carrying a message. -/
inductive PyExc where
  | attrError : PyExc
  | nameError : String → PyExc
  | exc : String → PyExc
deriving Repr, DecidableEq

/-- Text Python renders for an exception interpolated into a log message. -/
def excStr : PyExc → String
  | PyExc.attrError => "AttributeError"
  | PyExc.nameError n => "name " ++ n ++ " is not defined"
  | PyExc.exc s => s

/-- Severity levels of the toolkit logger used by the hook. -/
inductive LogLevel where
  | debug | info | warning | error
deriving Repr, DecidableEq

/-- Observable actions performed by the collector, recorded in order.
A checkExists event records the path the item would be collected for
(orig), the path actually tested on disk (checked) and the result. -/
inductive Ev where
  | checkApp (app : String) (installed : Bool)
  | checkEnvVar (var : String) (loaded : Bool)
  | getNodes (app : String)
  | getTemplate (app : String) (kind : String)
  | resolvePath (path : String)
  | checkExists (orig : String) (checked : String) (present : Bool)
  | collectFile (path : String)
  | decorate (what : String)
  | log (lvl : LogLevel) (msg : String)
  | setFlag (flag : String)
  | createItem (itemType : String)
  | queryPublishedStatus (node : String) (published : Bool)
  | queryOutputRange (node : String)
deriving Repr, DecidableEq

/-- A Houdini node as the collector sees it: its scene path and its
evaluated string parameters. A missing entry models node.parm(name)
returning None. -/
structure HouNode where
  nodePath : String
  parms : List (String × String)
deriving Repr, DecidableEq

/-- Model of node.parm(name): none when the parameter does not exist. -/
def HouNode.parm (n : HouNode) (name : String) : Option String :=
  (n.parms.find? (fun p => p.1 == name)).map (fun p => p.2)

/-- A toggle parameter returned by the arnold handler method
getDifferentFileAOVs: its parameter name and its integer eval value. -/
structure AovParm where
  name : String
  value : Int
deriving Repr, DecidableEq

/-- Values stored in an item's string-keyed properties mapping: strings,
integers, and template objects (none models a Python None template). -/
inductive PropVal where
  | str (s : String)
  | int (n : Int)
  | tmpl (t : Option String)
deriving Repr, DecidableEq

/-- Insertion-ordered dictionary update, as for a Python dict: an
existing key keeps its position and gets the new value, a new key is
appended. -/
def dictInsert (d : List (String × α)) (k : String) (v : α) : List (String × α) :=
  if d.any (fun p => p.1 == k) then
    d.map (fun p => if p.1 == k then (k, v) else p)
  else d ++ [(k, v)]

/-- A publish item created during collection. -/
structure Item where
  itemType : String
  typeDisplay : String
  name : String
  props : List (String × PropVal)
  iconPath : Option String
  thumbnailPath : Option String
  thumbnailEnabled : Bool
deriving Repr, DecidableEq

/-- Model of the assignment item.properties[k] = v. -/
def Item.setProp (it : Item) (k : String) (v : PropVal) : Item :=
  { it with props := dictInsert it.props k v }

/-- Result of the base-class method _get_item_info for a path. -/
structure ItemInfo where
  item_type : String
  type_display : String
  icon_path : String
deriving Repr, DecidableEq

/-- Surface of the tk-houdini cache/usdrop/alembic/fbx/mantra node apps
used by the collector; get_nodes may raise. -/
structure TkNodeApp where
  get_nodes : Except PyExc (List HouNode)
  get_output_path : HouNode → String
  get_work_file_template : Option String
  get_publish_file_template : Option String

/-- Surface of the tk-houdini-arnold app used by the collector. -/
structure ArnoldApp where
  handler_getNodes : Except PyExc (List HouNode)
  handler_getOutputPath : HouNode → String
  get_work_file_template : Option String
  get_publish_file_template : Option String
  handler_getDifferentFileAOVs : HouNode → List AovParm

/-- A toolkit template object: its name and its get_fields method. -/
structure Template where
  tname : String
  fields : String → List (String × String)

/-- Surface of the tk-houdini-renderman and tk-houdini-karma apps. -/
structure RenderApp where
  get_all_nodes : Except PyExc (List HouNode)
  get_work_template : Option String
  get_render_template : Template
  get_output_range : HouNode → Int × Int
  get_output_paths : HouNode → Except PyExc (List String)
  get_published_status : HouNode → Bool

/-- Host state visible to the collector: the set of paths existing on
disk, the current hip file, the optional companion apps, process
environment variables, and the externally provided base-class and
utility operations. -/
structure Env where
  fs : List String
  hipFilePath : String
  util_filename : String → String
  util_publish_name : String → String
  get_template_by_name : String → Option String
  disk_location : String
  collect_file : String → Bool → Item
  item_info : String → ItemInfo
  houNodeType : String → Option (List HouNode)
  playbackRange : Int × Int
  getenv : String → Option String
  cachenodeApp : Option TkNodeApp
  usdropApp : Option TkNodeApp
  alembicApp : Option TkNodeApp
  fbxApp : Option TkNodeApp
  mantraApp : Option TkNodeApp
  arnoldApp : Option ArnoldApp
  rendermanApp : Option RenderApp
  karmaApp : Option RenderApp

/-- Python truthiness of os.getenv output: None and the empty string
are falsy. -/
def pyTruthy : Option String → Bool
  | none => false
  | some s => !(s == "")

/-- Python formatting of an integer with format spec 04 (zero padding
to width four, sign included in the width). -/
def fmt04 (n : Int) : String :=
  if n < 0 then
    let s := toString (-n).toNat
    "-" ++ String.mk (List.replicate (3 - s.length) '0') ++ s
  else
    let s := toString n.toNat
    String.mk (List.replicate (4 - s.length) '0') ++ s

/-- Replacement of every non-overlapping occurrence of pat, leftmost
first, over character lists; the fuel argument makes the recursion
structural and is always called with the input length, which suffices
because every step consumes at least one input character. -/
def replaceFuel (pat rep : List Char) : Nat → List Char → List Char
  | _, [] => []
  | 0, l => l
  | Nat.succ fuel, c :: cs =>
    if pat.isPrefixOf (c :: cs) then
      rep ++ replaceFuel pat rep fuel (cs.drop (pat.length - 1))
    else c :: replaceFuel pat rep fuel cs

/-- Model of the Python method s.replace(pat, rep) for nonempty pat. -/
def pyReplace (s pat rep : String) : String :=
  String.mk (replaceFuel pat.data rep.data s.data.length s.data)

/-- Model of the Python method s.endswith(suffix). -/
def pyEndsWith (s suffix : String) : Bool :=
  suffix.data.isSuffixOf s.data

/-- Characters after the last slash of a character list. -/
def afterLastSlash : List Char → List Char → List Char
  | acc, [] => acc
  | acc, c :: cs =>
    if c = '/' then afterLastSlash [] cs else afterLastSlash (acc ++ [c]) cs

/-- Model of os.path.basename for forward-slash Houdini node paths. -/
def basename (p : String) : String :=
  String.mk (afterLastSlash [] p.data)

/-- Python fields.get(k) rendered inside an f-string: a missing key
prints as None. -/
def fieldsGet (fields : List (String × String)) (k : String) : String :=
  match fields.find? (fun p => p.1 == k) with
  | some p => p.2
  | none => "None"

/-- Concatenation of the lists produced for each element of a list. -/
def catMap (f : α → List β) : List α → List β
  | [] => []
  | x :: xs => f x ++ catMap f xs

/-- Outcome of one collection routine: the items it created in order,
the trace of actions it performed, whether it reported its
nodes-collected flag, and the exception it raised, if any. -/
structure ROut where
  items : List Item
  events : List Ev
  flag : Bool
  exc : Option PyExc
deriving Repr, DecidableEq

/-- Embedding of collect_current_houdini_session. The settings argument
is the configured value of the Work Template setting, none when the
setting is absent or falsy. -/
def collect_current_houdini_session (env : Env) (settings : Option String) :
    Item × List Ev :=
  let path := env.hipFilePath
  let display_name :=
    if path == "" then "Current Houdini Session" else env.util_filename path
  let icon_path := env.disk_location ++ "/../icons/houdini.png"
  let session_item : Item :=
    { itemType := "houdini.session", typeDisplay := "Houdini File",
      name := display_name, props := [], iconPath := some icon_path,
      thumbnailPath := none, thumbnailEnabled := true }
  match settings with
  | some v =>
      let work_template := env.get_template_by_name v
      (session_item.setProp "work_template" (PropVal.tmpl work_template),
       [Ev.createItem "houdini.session", Ev.decorate "icon",
        Ev.decorate "work_template",
        Ev.log LogLevel.debug "Work template defined for Houdini collection.",
        Ev.log LogLevel.info "Collected current Houdini session"])
  | none =>
      (session_item,
       [Ev.createItem "houdini.session", Ev.decorate "icon",
        Ev.log LogLevel.info "Collected current Houdini session"])

/-- Per-node loop of collect_tk_cachenodes. -/
def cacheNodeLoop (env : Env) (app : TkNodeApp) :
    List HouNode → List Item × List Ev
  | [] => ([], [])
  | n :: rest =>
    let out_path := app.get_output_path n
    let present := env.fs.contains out_path
    let evs0 := [Ev.resolvePath out_path,
                 Ev.log LogLevel.debug ("out_path is " ++ out_path),
                 Ev.checkExists out_path out_path present]
    if present then
      let it0 := env.collect_file out_path true
      let it1 := { it0 with name := it0.name ++ " (" ++ n.nodePath ++ ")" }
      let wtStep :=
        match app.get_work_file_template with
        | some wt =>
            (it1.setProp "work_template" (PropVal.tmpl (some wt)),
             [Ev.decorate "work_template",
              Ev.log LogLevel.info ("Set work_template property on " ++ n.nodePath)])
        | none =>
            (it1,
             [Ev.log LogLevel.warning
                "Could not set work_template property. Will start versioning at 1."])
      let ptStep :=
        match app.get_publish_file_template with
        | some pt =>
            (wtStep.1.setProp "publish_template" (PropVal.tmpl (some pt)),
             [Ev.decorate "publish_template",
              Ev.log LogLevel.info ("Set publish_template property on " ++ n.nodePath)])
        | none =>
            (wtStep.1,
             [Ev.log LogLevel.warning
                "Could not set publish_template property. Will use working template as output."])
      let evs1 := evs0 ++
        [Ev.log LogLevel.info ("Processing sgtk_cache node: " ++ n.nodePath),
         Ev.collectFile out_path, Ev.decorate "name"] ++ wtStep.2 ++ ptStep.2
      let (its, evs) := cacheNodeLoop env app rest
      (ptStep.1 :: its, evs1 ++ evs)
    else
      let (its, evs) := cacheNodeLoop env app rest
      (its, (evs0 ++ [Ev.log LogLevel.warning "out_path was not validated."]) ++ evs)

/-- Embedding of collect_tk_cachenodes: only AttributeError from
get_nodes is caught; the routine has no nodes-collected flag. -/
def collect_tk_cachenodes (env : Env) : ROut :=
  match env.cachenodeApp with
  | none =>
      ⟨[], [Ev.checkApp "tk-houdini-cachenode" false,
            Ev.log LogLevel.debug
              "The tk-houdini-cachenode app is not installed. Will not attempt to collect those nodes."],
       false, none⟩
  | some app =>
      let evs0 := [Ev.checkApp "tk-houdini-cachenode" true,
                   Ev.getNodes "tk-houdini-cachenode"]
      match app.get_nodes with
      | Except.error PyExc.attrError =>
          ⟨[], evs0 ++ [Ev.log LogLevel.warning
                "Unable to query the session for tk-houdini-cachenode instances."],
           false, none⟩
      | Except.error e => ⟨[], evs0, false, some e⟩
      | Except.ok nodes =>
          let evs1 := evs0 ++ [Ev.getTemplate "tk-houdini-cachenode" "work",
                               Ev.getTemplate "tk-houdini-cachenode" "publish"]
          let (its, evs) := cacheNodeLoop env app nodes
          ⟨its, evs1 ++ evs, false, none⟩

/-- Per-node loop of collect_tk_usdropnodes. -/
def usdropNodeLoop (env : Env) (app : TkNodeApp) :
    List HouNode → List Item × List Ev
  | [] => ([], [])
  | n :: rest =>
    let output_path := app.get_output_path n
    let present := env.fs.contains output_path
    let evs0 := [Ev.resolvePath output_path,
                 Ev.log LogLevel.debug ("out_path is " ++ output_path),
                 Ev.checkExists output_path output_path present]
    if present then
      let it0 := env.collect_file output_path false
      let icon_path := env.disk_location ++ "/../icons/usd.png"
      let it1 := { it0 with
        iconPath := some icon_path
        name := it0.name ++ " (" ++ n.nodePath ++ ")" }
      let wtStep :=
        match app.get_work_file_template with
        | some wt =>
            (it1.setProp "work_template" (PropVal.tmpl (some wt)),
             [Ev.decorate "work_template",
              Ev.log LogLevel.info ("Set work_template property on " ++ n.nodePath)])
        | none =>
            (it1,
             [Ev.log LogLevel.warning
                "Could not set work_template property. Will start versioning at 1."])
      let ptStep :=
        match app.get_publish_file_template with
        | some pt =>
            (wtStep.1.setProp "publish_template" (PropVal.tmpl (some pt)),
             [Ev.decorate "publish_template",
              Ev.log LogLevel.info ("Set publish_template property on " ++ n.nodePath)])
        | none =>
            (wtStep.1,
             [Ev.log LogLevel.warning
                "Could not set publish_template property. Will use working template as output."])
      let evs1 := evs0 ++
        [Ev.log LogLevel.info ("Processing sgtk_usdrop node: " ++ n.nodePath),
         Ev.collectFile output_path, Ev.decorate "icon", Ev.decorate "name"] ++
        wtStep.2 ++ ptStep.2
      let (its, evs) := usdropNodeLoop env app rest
      (ptStep.1 :: its, evs1 ++ evs)
    else
      let (its, evs) := usdropNodeLoop env app rest
      (its, (evs0 ++ [Ev.log LogLevel.warning "out_path was not validated."]) ++ evs)

/-- Embedding of collect_tk_usdropnodes: unlike its siblings, the
get_nodes call is not wrapped in a try block, so any failure there
propagates to the caller. -/
def collect_tk_usdropnodes (env : Env) : ROut :=
  match env.usdropApp with
  | none =>
      ⟨[], [Ev.checkApp "tk-houdini-usdrop" false,
            Ev.log LogLevel.debug
              "The tk-houdini-usdrop node app is not installed. Will not attempt to collect those nodes."],
       false, none⟩
  | some app =>
      let evs0 := [Ev.checkApp "tk-houdini-usdrop" true,
                   Ev.getNodes "tk-houdini-usdrop"]
      match app.get_nodes with
      | Except.error e => ⟨[], evs0, false, some e⟩
      | Except.ok nodes =>
          let evs1 := evs0 ++ [Ev.getTemplate "tk-houdini-usdrop" "work",
                               Ev.getTemplate "tk-houdini-usdrop" "publish"]
          let (its, evs) := usdropNodeLoop env app nodes
          ⟨its, evs1 ++ evs, false, none⟩

/-- Per-node loop of collect_tk_alembicnodes: a missing output path is
skipped with no log message; each created item sets the
alembic-nodes-collected flag. -/
def alembicNodeLoop (env : Env) (app : TkNodeApp) :
    List HouNode → List Item × List Ev
  | [] => ([], [])
  | n :: rest =>
    let out_path := app.get_output_path n
    let present := env.fs.contains out_path
    let evs0 := [Ev.resolvePath out_path, Ev.checkExists out_path out_path present]
    if present then
      let it0 := env.collect_file out_path false
      let it1 := { it0 with name := it0.name ++ " (" ++ n.nodePath ++ ")" }
      let wtStep :=
        match app.get_work_file_template with
        | some wt =>
            (it1.setProp "work_template" (PropVal.tmpl (some wt)),
             [Ev.decorate "work_template"])
        | none => (it1, [])
      let evs1 := evs0 ++
        [Ev.log LogLevel.info ("Processing sgtk_alembic node: " ++ n.nodePath),
         Ev.collectFile out_path, Ev.decorate "name"] ++ wtStep.2 ++
        [Ev.setFlag "alembic"]
      let (its, evs) := alembicNodeLoop env app rest
      (wtStep.1 :: its, evs1 ++ evs)
    else
      let (its, evs) := alembicNodeLoop env app rest
      (its, evs0 ++ evs)

/-- Embedding of collect_tk_alembicnodes. -/
def collect_tk_alembicnodes (env : Env) : ROut :=
  match env.alembicApp with
  | none =>
      ⟨[], [Ev.checkApp "tk-houdini-alembicnode" false,
            Ev.log LogLevel.debug
              "The tk-houdini-alembicnode app is not installed. Will not attempt to collect those nodes."],
       false, none⟩
  | some app =>
      let evs0 := [Ev.checkApp "tk-houdini-alembicnode" true,
                   Ev.getNodes "tk-houdini-alembicnode"]
      match app.get_nodes with
      | Except.error PyExc.attrError =>
          ⟨[], evs0 ++ [Ev.log LogLevel.warning
                "Unable to query the session for tk-houdini-alembicnode instances. It looks like perhaps an older version of the app is in use which does not support querying the nodes. Consider updating the app to allow publishing their outputs."],
           false, none⟩
      | Except.error e => ⟨[], evs0, false, some e⟩
      | Except.ok nodes =>
          let evs1 := evs0 ++ [Ev.getTemplate "tk-houdini-alembicnode" "work"]
          let (its, evs) := alembicNodeLoop env app nodes
          ⟨its, evs1 ++ evs, !its.isEmpty, none⟩

/-- Per-node loop of collect_tk_fbxnodes. -/
def fbxNodeLoop (env : Env) (app : TkNodeApp) :
    List HouNode → List Item × List Ev
  | [] => ([], [])
  | n :: rest =>
    let out_path := app.get_output_path n
    let present := env.fs.contains out_path
    let evs0 := [Ev.resolvePath out_path, Ev.checkExists out_path out_path present]
    if present then
      let it0 := env.collect_file out_path false
      let it1 := { it0 with name := it0.name ++ " (" ++ n.nodePath ++ ")" }
      let wtStep :=
        match app.get_work_file_template with
        | some wt =>
            (it1.setProp "work_template" (PropVal.tmpl (some wt)),
             [Ev.decorate "work_template"])
        | none => (it1, [])
      let evs1 := evs0 ++
        [Ev.log LogLevel.info ("Processing sgtk_fbx node: " ++ n.nodePath),
         Ev.collectFile out_path, Ev.decorate "name"] ++ wtStep.2 ++
        [Ev.setFlag "fbx"]
      let (its, evs) := fbxNodeLoop env app rest
      (wtStep.1 :: its, evs1 ++ evs)
    else
      let (its, evs) := fbxNodeLoop env app rest
      (its, evs0 ++ evs)

/-- Embedding of collect_tk_fbxnodes. -/
def collect_tk_fbxnodes (env : Env) : ROut :=
  match env.fbxApp with
  | none =>
      ⟨[], [Ev.checkApp "tk-houdini-fbxnode" false,
            Ev.log LogLevel.debug
              "The tk-houdini-fbxnode app is not installed. Will not attempt to collect those nodes."],
       false, none⟩
  | some app =>
      let evs0 := [Ev.checkApp "tk-houdini-fbxnode" true,
                   Ev.getNodes "tk-houdini-fbxnode"]
      match app.get_nodes with
      | Except.error PyExc.attrError =>
          ⟨[], evs0 ++ [Ev.log LogLevel.warning
                "Unable to query the session for tk-houdini-fbxnode instances. It looks like perhaps an older version of the app is in use which does not support querying the nodes. Consider updating the app to allow publishing their outputs."],
           false, none⟩
      | Except.error e => ⟨[], evs0, false, some e⟩
      | Except.ok nodes =>
          let evs1 := evs0 ++ [Ev.getTemplate "tk-houdini-fbxnode" "work"]
          let (its, evs) := fbxNodeLoop env app nodes
          ⟨its, evs1 ++ evs, !its.isEmpty, none⟩

/-- Per-node loop of collect_tk_mantranodes. -/
def mantraNodeLoop (env : Env) (app : TkNodeApp) :
    List HouNode → List Item × List Ev
  | [] => ([], [])
  | n :: rest =>
    let out_path := app.get_output_path n
    let present := env.fs.contains out_path
    let evs0 := [Ev.resolvePath out_path, Ev.checkExists out_path out_path present]
    if present then
      let it0 := env.collect_file out_path true
      let it1 := { it0 with name := it0.name ++ " (" ++ n.nodePath ++ ")" }
      let wtStep :=
        match app.get_work_file_template with
        | some wt =>
            (it1.setProp "work_template" (PropVal.tmpl (some wt)),
             [Ev.decorate "work_template"])
        | none => (it1, [])
      let evs1 := evs0 ++
        [Ev.log LogLevel.info ("Processing sgtk_mantra node: " ++ n.nodePath),
         Ev.collectFile out_path, Ev.decorate "name"] ++ wtStep.2 ++
        [Ev.setFlag "mantra"]
      let (its, evs) := mantraNodeLoop env app rest
      (wtStep.1 :: its, evs1 ++ evs)
    else
      let (its, evs) := mantraNodeLoop env app rest
      (its, evs0 ++ evs)

/-- Embedding of collect_tk_mantranodes. -/
def collect_tk_mantranodes (env : Env) : ROut :=
  match env.mantraApp with
  | none =>
      ⟨[], [Ev.checkApp "tk-houdini-mantranode" false,
            Ev.log LogLevel.debug
              "The tk-houdini-mantranode app is not installed. Will not attempt to collect those nodes."],
       false, none⟩
  | some app =>
      let evs0 := [Ev.checkApp "tk-houdini-mantranode" true,
                   Ev.getNodes "tk-houdini-mantranode"]
      match app.get_nodes with
      | Except.error PyExc.attrError =>
          ⟨[], evs0 ++ [Ev.log LogLevel.warning
                "Unable to query the session for tk-houdini-mantranode instances. It looks like perhaps an older version of the app is in use which does not support querying the nodes. Consider updating the app to allow publishing their outputs."],
           false, none⟩
      | Except.error e => ⟨[], evs0, false, some e⟩
      | Except.ok nodes =>
          let evs1 := evs0 ++ [Ev.getTemplate "tk-houdini-mantranode" "work"]
          let (its, evs) := mantraNodeLoop env app nodes
          ⟨its, evs1 ++ evs, !its.isEmpty, none⟩

/-- Aov dictionary built by __collect_tk_arnoldaovs: for each enabled
separate-file toggle, maps the aov label to the separate file path.
Raises AttributeError when a referenced label or file parameter is
missing on the node, as node.parm would return None. -/
def arnoldAovDict (n : HouNode) :
    List AovParm → List (String × String) → Except PyExc (List (String × String))
  | [], acc => Except.ok acc
  | parm :: rest, acc =>
    let parmNumber := pyReplace parm.name "ar_aov_separate" ""
    if parm.value ≠ 0 then
      match n.parm ("ar_aov_label" ++ parmNumber) with
      | none => Except.error PyExc.attrError
      | some aovName =>
        match n.parm ("ar_aov_separate_file" ++ parmNumber) with
        | none => Except.error PyExc.attrError
        | some f => arnoldAovDict n rest (dictInsert acc aovName f)
    else arnoldAovDict n rest acc

/-- Per-aov loop of __collect_tk_arnoldaovs. -/
def arnoldAovLoop (env : Env) (work_template : Option String) :
    List (String × String) → List Item × List Ev
  | [] => ([], [])
  | aov :: rest =>
    let present := env.fs.contains aov.2
    let evs0 := [Ev.checkExists aov.2 aov.2 present]
    if present then
      let it0 := env.collect_file aov.2 true
      let it1 := { it0 with name := aov.1 ++ " AOV Render" }
      let wtStep :=
        match work_template with
        | some wt =>
            (it1.setProp "work_template" (PropVal.tmpl (some wt)),
             [Ev.decorate "work_template"])
        | none => (it1, [])
      let evs1 := evs0 ++ [Ev.collectFile aov.2, Ev.decorate "name"] ++ wtStep.2 ++
        [Ev.log LogLevel.info
           ("Setting publish name to " ++ env.util_publish_name aov.2)]
      let (its, evs) := arnoldAovLoop env work_template rest
      (wtStep.1 :: its, evs1 ++ evs)
    else
      let (its, evs) := arnoldAovLoop env work_template rest
      (its, evs0 ++ evs)

/-- Per-node loop of collect_tk_arnoldnodes. The flag is set only after
the aov sub-collection of a node completes. -/
def arnoldNodeLoop (env : Env) (app : ArnoldApp) (ff lf : Int) :
    List HouNode → List Item × List Ev × Bool × Option PyExc
  | [] => ([], [], false, none)
  | n :: rest =>
    let out_path := app.handler_getOutputPath n
    let present := env.fs.contains out_path
    let evs0 := [Ev.resolvePath out_path, Ev.checkExists out_path out_path present]
    if present then
      let it0 := env.collect_file out_path true
      let it1 := { it0 with name := "Beauty Render (" ++ n.nodePath ++ ")" }
      let it2 := ((((it1.setProp "work_template"
          (PropVal.tmpl app.get_work_file_template)).setProp
          "publish_template" (PropVal.tmpl app.get_publish_file_template)).setProp
          "first_frame" (PropVal.int ff)).setProp
          "last_frame" (PropVal.int lf))
      let evs1 := evs0 ++
        [Ev.log LogLevel.info ("Processing sgtk_arnold node: " ++ n.nodePath),
         Ev.collectFile out_path, Ev.decorate "name",
         Ev.decorate "work_template", Ev.decorate "publish_template",
         Ev.decorate "first_frame", Ev.decorate "last_frame",
         Ev.log LogLevel.info
           ("Setting publish name to " ++ env.util_publish_name out_path)]
      match arnoldAovDict n (app.handler_getDifferentFileAOVs n) [] with
      | Except.error e => ([it2], evs1, false, some e)
      | Except.ok aovs =>
        let (aits, aevs) := arnoldAovLoop env app.get_work_file_template aovs
        let evs2 := evs1 ++ aevs ++ [Ev.setFlag "arnold"]
        let (its, evs, _, exc) := arnoldNodeLoop env app ff lf rest
        (it2 :: aits ++ its, evs2 ++ evs, true, exc)
    else
      let (its, evs, fl, exc) := arnoldNodeLoop env app ff lf rest
      (its, evs0 ++ evs, fl, exc)

/-- Embedding of collect_tk_arnoldnodes. When the node query fails, the
except branch logs an error but has no return, so the routine still
reads the templates and the playbar range and then raises NameError on
the unbound nodes variable at the loop header. -/
def collect_tk_arnoldnodes (env : Env) : ROut :=
  match env.arnoldApp with
  | none =>
      ⟨[], [Ev.checkApp "tk-houdini-arnold" false,
            Ev.log LogLevel.debug
              "The tk-houdini-arnold app is not installed. Skipping collection of those nodes."],
       false, none⟩
  | some app =>
      let htoa := pyTruthy (env.getenv "HTOA")
      let evsA := [Ev.checkApp "tk-houdini-arnold" true, Ev.checkEnvVar "HTOA" htoa]
      if htoa then
        match app.handler_getNodes with
        | Except.error e =>
            ⟨[], evsA ++ [Ev.getNodes "tk-houdini-arnold",
               Ev.log LogLevel.error
                 ("Could not receive arnold node instances. " ++ excStr e),
               Ev.getTemplate "tk-houdini-arnold" "work",
               Ev.getTemplate "tk-houdini-arnold" "publish",
               Ev.queryOutputRange "playbar"],
             false, some (PyExc.nameError "nodes")⟩
        | Except.ok nodes =>
            let ff := env.playbackRange.1
            let lf := env.playbackRange.2
            let evsB := evsA ++ [Ev.getNodes "tk-houdini-arnold",
               Ev.getTemplate "tk-houdini-arnold" "work",
               Ev.getTemplate "tk-houdini-arnold" "publish",
               Ev.queryOutputRange "playbar"]
            let (its, evs, fl, exc) := arnoldNodeLoop env app ff lf nodes
            ⟨its, evsB ++ evs, fl, exc⟩
      else
        ⟨[], evsA ++ [Ev.log LogLevel.debug
            "Arnold is not loaded. Skipping collection of Arnold nodes."],
         false, none⟩

/-- Per-path loop of collect_tk_rendermannodes: xml stats outputs are
skipped, existence is tested on the path with dollar-F4 replaced by the
zero-padded first frame, and an item is created only when the node has
not been published yet. -/
def rendermanPathLoop (env : Env) (app : RenderApp) (n : HouNode) (ff lf : Int) :
    List String → List Item × List Ev
  | [] => ([], [])
  | output_path :: rest =>
    if pyEndsWith output_path ".xml" then
      rendermanPathLoop env app n ff lf rest
    else
      let checked := pyReplace output_path "$F4" (fmt04 ff)
      let present := env.fs.contains checked
      let evs0 := [Ev.checkExists output_path checked present]
      if present then
        let published := app.get_published_status n
        let evs1 := evs0 ++ [Ev.queryPublishedStatus n.nodePath published]
        if published then
          let (its, evs) := rendermanPathLoop env app n ff lf rest
          (its, evs1 ++ evs)
        else
          let it0 := env.collect_file output_path true
          let info := env.item_info output_path
          let flds := (app.get_render_template).fields output_path
          let it1 := { it0 with
            itemType := info.item_type ++ ".sequence"
            typeDisplay := info.type_display ++ " Sequence"
            iconPath := some info.icon_path
            thumbnailPath := some output_path
            thumbnailEnabled := false
            name := "Render (" ++ fieldsGet flds "output" ++ ", " ++
                    fieldsGet flds "aov_name" ++ ") " ++ basename n.nodePath }
          let publish_name := env.util_publish_name output_path
          let it2 := (((((it1.setProp "work_template"
              (PropVal.tmpl app.get_work_template)).setProp
              "publish_template" (PropVal.tmpl (some (app.get_render_template).tname))).setProp
              "first_frame" (PropVal.int ff)).setProp
              "last_frame" (PropVal.int lf)).setProp
              "colorspace" (PropVal.str "ACES - ACEScg")).setProp
              "publish_name" (PropVal.str publish_name)
          let evs2 := evs1 ++
            [Ev.log LogLevel.info ("Processing sgtk_hdprman node: " ++ n.nodePath),
             Ev.collectFile output_path, Ev.decorate "type",
             Ev.decorate "icon", Ev.decorate "thumbnail", Ev.decorate "name",
             Ev.decorate "work_template", Ev.decorate "publish_template",
             Ev.decorate "first_frame", Ev.decorate "last_frame",
             Ev.decorate "colorspace",
             Ev.log LogLevel.info ("Setting publish name to " ++ publish_name),
             Ev.decorate "publish_name", Ev.setFlag "renderman"]
          let (its, evs) := rendermanPathLoop env app n ff lf rest
          (it2 :: its, evs2 ++ evs)
      else
        let (its, evs) := rendermanPathLoop env app n ff lf rest
        (its, evs0 ++ evs)

/-- Per-node loop of collect_tk_rendermannodes: the frame range is read
before the output paths; a failing path query logs an error and skips
the node. -/
def rendermanNodeLoop (env : Env) (app : RenderApp) :
    List HouNode → List Item × List Ev
  | [] => ([], [])
  | n :: rest =>
    let fr := app.get_output_range n
    let evs0 := [Ev.queryOutputRange n.nodePath]
    match app.get_output_paths n with
    | Except.error e =>
      let (its, evs) := rendermanNodeLoop env app rest
      (its, (evs0 ++ [Ev.log LogLevel.error
         ("Could not receive renderman render paths. " ++ excStr e)]) ++ evs)
    | Except.ok output_paths =>
      let (pits, pevs) := rendermanPathLoop env app n fr.1 fr.2 output_paths
      let (its, evs) := rendermanNodeLoop env app rest
      (pits ++ its, (evs0 ++ pevs) ++ evs)

/-- Embedding of collect_tk_rendermannodes. -/
def collect_tk_rendermannodes (env : Env) : ROut :=
  match env.rendermanApp with
  | none =>
      ⟨[], [Ev.checkApp "tk-houdini-renderman" false,
            Ev.log LogLevel.debug
              "The tk-houdini-renderman app is not installed. Skipping collection of those nodes."],
       false, none⟩
  | some app =>
      let rman := pyTruthy (env.getenv "RMANTREE")
      let evsA := [Ev.checkApp "tk-houdini-renderman" true,
                   Ev.checkEnvVar "RMANTREE" rman]
      if rman then
        match app.get_all_nodes with
        | Except.error e =>
            ⟨[], evsA ++ [Ev.getNodes "tk-houdini-renderman",
              Ev.log LogLevel.error
                ("Could not receive renderman node instances. " ++ excStr e)],
             false, none⟩
        | Except.ok nodes =>
            let evsB := evsA ++ [Ev.getNodes "tk-houdini-renderman",
              Ev.getTemplate "tk-houdini-renderman" "work",
              Ev.getTemplate "tk-houdini-renderman" "render"]
            let (its, evs) := rendermanNodeLoop env app nodes
            ⟨its, evsB ++ evs, !its.isEmpty, none⟩
      else
        ⟨[], evsA ++ [Ev.log LogLevel.debug
            "RenderMan is not loaded. Skipping collection of RenderMan nodes."],
         false, none⟩

/-- Per-path loop of collect_tk_karmanodes; same filtering as the
renderman path loop. -/
def karmaPathLoop (env : Env) (app : RenderApp) (n : HouNode) (ff lf : Int) :
    List String → List Item × List Ev
  | [] => ([], [])
  | output_path :: rest =>
    if pyEndsWith output_path ".xml" then
      karmaPathLoop env app n ff lf rest
    else
      let checked := pyReplace output_path "$F4" (fmt04 ff)
      let present := env.fs.contains checked
      let evs0 := [Ev.checkExists output_path checked present]
      if present then
        let published := app.get_published_status n
        let evs1 := evs0 ++ [Ev.queryPublishedStatus n.nodePath published]
        if published then
          let (its, evs) := karmaPathLoop env app n ff lf rest
          (its, evs1 ++ evs)
        else
          let it0 := env.collect_file output_path true
          let info := env.item_info output_path
          let flds := (app.get_render_template).fields output_path
          let it1 := { it0 with
            itemType := info.item_type ++ ".sequence"
            typeDisplay := info.type_display ++ " Sequence"
            iconPath := some info.icon_path
            thumbnailPath := some output_path
            thumbnailEnabled := false
            name := "Render (" ++ fieldsGet flds "output" ++ ", " ++
                    fieldsGet flds "aov_name" ++ ") " ++ basename n.nodePath }
          let publish_name := env.util_publish_name output_path
          let it2 := (((((it1.setProp "work_template"
              (PropVal.tmpl app.get_work_template)).setProp
              "publish_template" (PropVal.tmpl (some (app.get_render_template).tname))).setProp
              "first_frame" (PropVal.int ff)).setProp
              "last_frame" (PropVal.int lf)).setProp
              "colorspace" (PropVal.str "ACES - ACEScg")).setProp
              "publish_name" (PropVal.str publish_name)
          let evs2 := evs1 ++
            [Ev.log LogLevel.info
               ("Processing SGTK_Karma_Render node: " ++ n.nodePath),
             Ev.collectFile output_path, Ev.decorate "type",
             Ev.decorate "icon", Ev.decorate "thumbnail", Ev.decorate "name",
             Ev.decorate "work_template", Ev.decorate "publish_template",
             Ev.decorate "first_frame", Ev.decorate "last_frame",
             Ev.decorate "colorspace",
             Ev.log LogLevel.info ("Setting publish name to " ++ publish_name),
             Ev.decorate "publish_name", Ev.setFlag "karma"]
          let (its, evs) := karmaPathLoop env app n ff lf rest
          (it2 :: its, evs2 ++ evs)
      else
        let (its, evs) := karmaPathLoop env app n ff lf rest
        (its, evs0 ++ evs)

/-- Per-node loop of collect_tk_karmanodes: unlike renderman, the output
paths are queried first and the frame range only after a successful
query. -/
def karmaNodeLoop (env : Env) (app : RenderApp) :
    List HouNode → List Item × List Ev
  | [] => ([], [])
  | n :: rest =>
    match app.get_output_paths n with
    | Except.error e =>
      let (its, evs) := karmaNodeLoop env app rest
      (its, [Ev.log LogLevel.error
         ("Could not receive Karma render paths. " ++ excStr e)] ++ evs)
    | Except.ok output_paths =>
      let fr := app.get_output_range n
      let (pits, pevs) := karmaPathLoop env app n fr.1 fr.2 output_paths
      let (its, evs) := karmaNodeLoop env app rest
      (pits ++ its, ([Ev.queryOutputRange n.nodePath] ++ pevs) ++ evs)

/-- Embedding of collect_tk_karmanodes. -/
def collect_tk_karmanodes (env : Env) : ROut :=
  match env.karmaApp with
  | none =>
      ⟨[], [Ev.checkApp "tk-houdini-karma" false,
            Ev.log LogLevel.debug
              "The tk-houdini-karma app is not installed. Skipping collection of those nodes."],
       false, none⟩
  | some app =>
      let evsA := [Ev.checkApp "tk-houdini-karma" true]
      match app.get_all_nodes with
      | Except.error e =>
          ⟨[], evsA ++ [Ev.getNodes "tk-houdini-karma",
            Ev.log LogLevel.error
              ("Could not receive Karma node instances. " ++ excStr e)],
           false, none⟩
      | Except.ok nodes =>
          let evsB := evsA ++ [Ev.getNodes "tk-houdini-karma",
            Ev.getTemplate "tk-houdini-karma" "work",
            Ev.getTemplate "tk-houdini-karma" "render"]
          let (its, evs) := karmaNodeLoop env app nodes
          ⟨its, evsB ++ evs, !its.isEmpty, none⟩

/-- The module level table of generic output node types per category:
only the rop category, in dict insertion order, each mapped to its
output file parameter name. -/
def houdiniOutputs : List (String × String) :=
  [("alembic", "filename"), ("fbx", "filename"), ("comp", "copoutput"),
   ("ifd", "vm_picture"), ("opengl", "picture"), ("wren", "wr_picture")]

/-- Per-node loop of collect_node_outputs for one node type: a missing
path parameter makes parm return None and eval raise AttributeError. -/
def nodeOutputsNodeLoop (env : Env) (node_type path_parm_name : String) :
    List HouNode → List Item × List Ev × Option PyExc
  | [] => ([], [], none)
  | n :: rest =>
    match n.parm path_parm_name with
    | none => ([], [], some PyExc.attrError)
    | some path =>
      let present := env.fs.contains path
      let evs0 := [Ev.resolvePath path, Ev.checkExists path path present]
      if present then
        let it0 := env.collect_file path true
        let it1 := { it0 with name := it0.name ++ " (" ++ n.nodePath ++ ")" }
        let evs1 := evs0 ++
          [Ev.log LogLevel.info
             ("Processing " ++ node_type ++ " node: " ++ n.nodePath),
           Ev.collectFile path, Ev.decorate "name"]
        let (its, evs, exc) := nodeOutputsNodeLoop env node_type path_parm_name rest
        (it1 :: its, evs1 ++ evs, exc)
      else
        let (its, evs, exc) := nodeOutputsNodeLoop env node_type path_parm_name rest
        (its, evs0 ++ evs, exc)

/-- One node type step of collect_node_outputs, honouring the skip
flags for node kinds already covered by a toolkit collector. -/
def nodeOutputsTypeStep (env : Env) (aC fC mC : Bool)
    (node_type path_parm_name : String) : List Item × List Ev × Option PyExc :=
  if node_type == "alembic" && aC then
    ([], [Ev.log LogLevel.debug
       "Skipping regular alembic node collection since tk alembic nodes were collected. "],
     none)
  else if node_type == "fbx" && fC then
    ([], [Ev.log LogLevel.debug
       "Skipping regular fbx node collection since tk fbx nodes were collected. "],
     none)
  else if node_type == "ifd" && mC then
    ([], [Ev.log LogLevel.debug
       "Skipping regular mantra node collection since tk mantra nodes were collected. "],
     none)
  else
    match env.houNodeType node_type with
    | none => ([], [], none)
    | some nodes => nodeOutputsNodeLoop env node_type path_parm_name nodes

/-- Iteration of collect_node_outputs over the output table; an
exception raised for one type stops the remaining types. -/
def nodeOutputsTypes (env : Env) (aC fC mC : Bool) :
    List (String × String) → List Item × List Ev × Option PyExc
  | [] => ([], [], none)
  | t :: rest =>
    let s := nodeOutputsTypeStep env aC fC mC t.1 t.2
    match s.2.2 with
    | some e => (s.1, s.2.1, some e)
    | none =>
      let r := nodeOutputsTypes env aC fC mC rest
      (s.1 ++ r.1, s.2.1 ++ r.2.1, r.2.2)

/-- Embedding of collect_node_outputs; the three flags record whether
tk alembic, fbx and mantra items were collected earlier in the same
session invocation. -/
def collect_node_outputs (env : Env) (aC fC mC : Bool) : ROut :=
  let r := nodeOutputsTypes env aC fC mC houdiniOutputs
  ⟨r.1, r.2.1, false, r.2.2⟩

/-- Outcome of a whole process_current_session invocation. -/
structure SessionOut where
  items : List Item
  events : List Ev
  exc : Option PyExc
deriving Repr, DecidableEq

/-- Sequencing of one routine after the prefix of the session run: a
pending exception stops every later routine. -/
def stepRun (prev : SessionOut) (r : ROut) : SessionOut :=
  match prev.exc with
  | some _ => prev
  | none => ⟨prev.items ++ r.items, prev.events ++ r.events, r.exc⟩

/-- Embedding of process_current_session: the session item first, then
the eight toolkit collectors in source order, then the generic output
collector, which receives the three collected flags. -/
def process_current_session (env : Env) (settings : Option String) : SessionOut :=
  let s := collect_current_houdini_session env settings
  let s0 : SessionOut := ⟨[s.1], s.2, none⟩
  let rAl := collect_tk_alembicnodes env
  let rFbx := collect_tk_fbxnodes env
  let rMan := collect_tk_mantranodes env
  let s1 := stepRun s0 rAl
  let s2 := stepRun s1 rFbx
  let s3 := stepRun s2 rMan
  let s4 := stepRun s3 (collect_tk_arnoldnodes env)
  let s5 := stepRun s4 (collect_tk_rendermannodes env)
  let s6 := stepRun s5 (collect_tk_karmanodes env)
  let s7 := stepRun s6 (collect_tk_cachenodes env)
  let s8 := stepRun s7 (collect_tk_usdropnodes env)
  stepRun s8 (collect_node_outputs env rAl.flag rFbx.flag rMan.flag)

/-- A fresh file item as the base collector would create it, used by
the concrete test environments. -/
def baseItem (p : String) : Item :=
  { itemType := "file.image", typeDisplay := "Image", name := p,
    props := [], iconPath := none, thumbnailPath := none,
    thumbnailEnabled := true }

/-- A concrete host environment with no companion app installed and an
empty filesystem; the per-claim environments override single fields. -/
def env0 : Env :=
  { fs := []
    hipFilePath := ""
    util_filename := fun s => basename s
    util_publish_name := fun s => s
    get_template_by_name := fun _ => none
    disk_location := "/hooks"
    collect_file := fun p _ => baseItem p
    item_info := fun _ => { item_type := "file.image", type_display := "Image",
                            icon_path := "/icons/image.png" }
    houNodeType := fun _ => none
    playbackRange := (1, 10)
    getenv := fun _ => none
    cachenodeApp := none
    usdropApp := none
    alembicApp := none
    fbxApp := none
    mantraApp := none
    arnoldApp := none
    rendermanApp := none
    karmaApp := none }

/-- C5: for every collect_tk routine, when the engine reports the
companion app as not installed (the lookup yields none), the routine
performs exactly the installation check and one debug-level log message
and returns at once: it creates no items, reads no further host state,
sets no flag and raises nothing. -/
theorem C5_missing_app_logs_debug_and_returns (env : Env) :
    (env.cachenodeApp = none →
      collect_tk_cachenodes env =
        ⟨[], [Ev.checkApp "tk-houdini-cachenode" false,
              Ev.log LogLevel.debug
                "The tk-houdini-cachenode app is not installed. Will not attempt to collect those nodes."],
         false, none⟩) ∧
    (env.usdropApp = none →
      collect_tk_usdropnodes env =
        ⟨[], [Ev.checkApp "tk-houdini-usdrop" false,
              Ev.log LogLevel.debug
                "The tk-houdini-usdrop node app is not installed. Will not attempt to collect those nodes."],
         false, none⟩) ∧
    (env.alembicApp = none →
      collect_tk_alembicnodes env =
        ⟨[], [Ev.checkApp "tk-houdini-alembicnode" false,
              Ev.log LogLevel.debug
                "The tk-houdini-alembicnode app is not installed. Will not attempt to collect those nodes."],
         false, none⟩) ∧
    (env.fbxApp = none →
      collect_tk_fbxnodes env =
        ⟨[], [Ev.checkApp "tk-houdini-fbxnode" false,
              Ev.log LogLevel.debug
                "The tk-houdini-fbxnode app is not installed. Will not attempt to collect those nodes."],
         false, none⟩) ∧
    (env.mantraApp = none →
      collect_tk_mantranodes env =
        ⟨[], [Ev.checkApp "tk-houdini-mantranode" false,
              Ev.log LogLevel.debug
                "The tk-houdini-mantranode app is not installed. Will not attempt to collect those nodes."],
         false, none⟩) ∧
    (env.arnoldApp = none →
      collect_tk_arnoldnodes env =
        ⟨[], [Ev.checkApp "tk-houdini-arnold" false,
              Ev.log LogLevel.debug
                "The tk-houdini-arnold app is not installed. Skipping collection of those nodes."],
         false, none⟩) ∧
    (env.rendermanApp = none →
      collect_tk_rendermannodes env =
        ⟨[], [Ev.checkApp "tk-houdini-renderman" false,
              Ev.log LogLevel.debug
                "The tk-houdini-renderman app is not installed. Skipping collection of those nodes."],
         false, none⟩) ∧
    (env.karmaApp = none →
      collect_tk_karmanodes env =
        ⟨[], [Ev.checkApp "tk-houdini-karma" false,
              Ev.log LogLevel.debug
                "The tk-houdini-karma app is not installed. Skipping collection of those nodes."],
         false, none⟩) := by
  refine ⟨fun h => ?_, fun h => ?_, fun h => ?_, fun h => ?_, fun h => ?_,
          fun h => ?_, fun h => ?_, fun h => ?_⟩
  · simp [collect_tk_cachenodes, h]
  · simp [collect_tk_usdropnodes, h]
  · simp [collect_tk_alembicnodes, h]
  · simp [collect_tk_fbxnodes, h]
  · simp [collect_tk_mantranodes, h]
  · simp [collect_tk_arnoldnodes, h]
  · simp [collect_tk_rendermannodes, h]
  · simp [collect_tk_karmanodes, h]

/-- Witness for C5 at the concrete environment with no app installed. -/
theorem C5_missing_app_logs_debug_and_returns_witness :
    collect_tk_cachenodes env0 =
      ⟨[], [Ev.checkApp "tk-houdini-cachenode" false,
            Ev.log LogLevel.debug
              "The tk-houdini-cachenode app is not installed. Will not attempt to collect those nodes."],
       false, none⟩ ∧
    collect_tk_karmanodes env0 =
      ⟨[], [Ev.checkApp "tk-houdini-karma" false,
            Ev.log LogLevel.debug
              "The tk-houdini-karma app is not installed. Skipping collection of those nodes."],
       false, none⟩ :=
  ⟨(C5_missing_app_logs_debug_and_returns env0).1 rfl,
   (C5_missing_app_logs_debug_and_returns env0).2.2.2.2.2.2.2 rfl⟩

/-- A cache-style node app whose get_nodes raises AttributeError. -/
def appNodesAttrError : TkNodeApp :=
  { get_nodes := Except.error PyExc.attrError
    get_output_path := fun _ => ""
    get_work_file_template := none
    get_publish_file_template := none }

/-- A cache-style node app whose get_nodes raises a non-AttributeError
exception. -/
def appNodesBoom : TkNodeApp :=
  { get_nodes := Except.error (PyExc.exc "boom")
    get_output_path := fun _ => ""
    get_work_file_template := none
    get_publish_file_template := none }

/-- Environment with only the usdrop app installed, whose node query
raises. -/
def envUsdropRaise : Env := { env0 with usdropApp := some appNodesBoom }

/-- Environment with only the cachenode app installed, whose node query
raises AttributeError. -/
def envCacheAttr : Env := { env0 with cachenodeApp := some appNodesAttrError }

/-- An arnold app whose node query raises. -/
def appArnoldRaise : ArnoldApp :=
  { handler_getNodes := Except.error (PyExc.exc "fail")
    handler_getOutputPath := fun _ => ""
    get_work_file_template := none
    get_publish_file_template := none
    handler_getDifferentFileAOVs := fun _ => [] }

/-- Environment with arnold installed and loaded, whose node query
raises. -/
def envArnoldRaise : Env := { env0 with
  getenv := fun v => if v == "HTOA" then some "/opt/htoa" else none
  arnoldApp := some appArnoldRaise }

/-- A renderman or karma style app whose node query raises. -/
def appRenderRaise : RenderApp :=
  { get_all_nodes := Except.error (PyExc.exc "down")
    get_work_template := none
    get_render_template := { tname := "rt", fields := fun _ => [] }
    get_output_range := fun _ => (1, 1)
    get_output_paths := fun _ => Except.ok []
    get_published_status := fun _ => false }

/-- Environment with renderman installed and loaded, whose node query
raises. -/
def envRmanRaise : Env := { env0 with
  getenv := fun v => if v == "RMANTREE" then some "/opt/rman" else none
  rendermanApp := some appRenderRaise }

/-- Environment with karma installed, whose node query raises. -/
def envKarmaRaise : Env := { env0 with karmaApp := some appRenderRaise }

/-- A generic rop node with no parameters at all, so any path parameter
lookup yields None. -/
def nodeNoParm : HouNode := { nodePath := "/out/bare", parms := [] }

/-- Environment whose generic alembic rop instances lack the filename
parameter. -/
def envParmMissing : Env := { env0 with
  houNodeType := fun t => if t == "alembic" then some [nodeNoParm] else none }

/-- C2 counterexample: with the usdrop app installed and its get_nodes
call raising, process_current_session propagates the exception to its
caller instead of returning normally. -/
theorem C2_counterexample_usdrop_propagates :
    (process_current_session envUsdropRaise none).exc = some (PyExc.exc "boom") := by
  decide

/-- C2 as amended: the cache, alembic, fbx and mantra collectors swallow
an AttributeError from get_nodes, and the renderman and karma collectors
swallow any node-query failure, so those invocations return normally;
but a failure of the usdrop get_nodes call propagates unchanged, a
failing arnold node query ends in a NameError on the unbound nodes
variable, a generic output node whose path parameter is absent raises
AttributeError out of collect_node_outputs, and a non-AttributeError
failure of any of the four guarded get_nodes calls propagates
unchanged. -/
theorem C2_exception_propagation (env : Env) :
    (∀ app, env.cachenodeApp = some app →
       app.get_nodes = Except.error PyExc.attrError →
       (collect_tk_cachenodes env).exc = none) ∧
    (∀ app, env.alembicApp = some app →
       app.get_nodes = Except.error PyExc.attrError →
       (collect_tk_alembicnodes env).exc = none) ∧
    (∀ app, env.fbxApp = some app →
       app.get_nodes = Except.error PyExc.attrError →
       (collect_tk_fbxnodes env).exc = none) ∧
    (∀ app, env.mantraApp = some app →
       app.get_nodes = Except.error PyExc.attrError →
       (collect_tk_mantranodes env).exc = none) ∧
    (∀ app e, env.rendermanApp = some app →
       pyTruthy (env.getenv "RMANTREE") = true →
       app.get_all_nodes = Except.error e →
       (collect_tk_rendermannodes env).exc = none) ∧
    (∀ app e, env.karmaApp = some app →
       app.get_all_nodes = Except.error e →
       (collect_tk_karmanodes env).exc = none) ∧
    (∀ app e, env.usdropApp = some app →
       app.get_nodes = Except.error e →
       (collect_tk_usdropnodes env).exc = some e) ∧
    (∀ app e, env.arnoldApp = some app →
       pyTruthy (env.getenv "HTOA") = true →
       app.handler_getNodes = Except.error e →
       (collect_tk_arnoldnodes env).exc = some (PyExc.nameError "nodes")) ∧
    (∀ fC mC n rest, env.houNodeType "alembic" = some (n :: rest) →
       n.parm "filename" = none →
       (collect_node_outputs env false fC mC).exc = some PyExc.attrError) ∧
    (∀ app e, env.cachenodeApp = some app →
       app.get_nodes = Except.error e → e ≠ PyExc.attrError →
       (collect_tk_cachenodes env).exc = some e) ∧
    (∀ app e, env.alembicApp = some app →
       app.get_nodes = Except.error e → e ≠ PyExc.attrError →
       (collect_tk_alembicnodes env).exc = some e) ∧
    (∀ app e, env.fbxApp = some app →
       app.get_nodes = Except.error e → e ≠ PyExc.attrError →
       (collect_tk_fbxnodes env).exc = some e) ∧
    (∀ app e, env.mantraApp = some app →
       app.get_nodes = Except.error e → e ≠ PyExc.attrError →
       (collect_tk_mantranodes env).exc = some e) := by
  refine ⟨fun app h1 h2 => ?_, fun app h1 h2 => ?_, fun app h1 h2 => ?_,
          fun app h1 h2 => ?_, fun app e h1 h2 h3 => ?_, fun app e h1 h2 => ?_,
          fun app e h1 h2 => ?_, fun app e h1 h2 h3 => ?_,
          fun fC mC n rest h1 h2 => ?_,
          fun app e h1 h2 h3 => ?_, fun app e h1 h2 h3 => ?_,
          fun app e h1 h2 h3 => ?_, fun app e h1 h2 h3 => ?_⟩
  · simp [collect_tk_cachenodes, h1, h2]
  · simp [collect_tk_alembicnodes, h1, h2]
  · simp [collect_tk_fbxnodes, h1, h2]
  · simp [collect_tk_mantranodes, h1, h2]
  · simp [collect_tk_rendermannodes, h1, h2, h3]
  · simp [collect_tk_karmanodes, h1, h2]
  · simp [collect_tk_usdropnodes, h1, h2]
  · simp [collect_tk_arnoldnodes, h1, h2, h3]
  · simp [collect_node_outputs, nodeOutputsTypes, houdiniOutputs,
          nodeOutputsTypeStep, nodeOutputsNodeLoop, h1, h2]
  · cases e with
    | attrError => exact absurd rfl h3
    | nameError m => simp [collect_tk_cachenodes, h1, h2]
    | exc m => simp [collect_tk_cachenodes, h1, h2]
  · cases e with
    | attrError => exact absurd rfl h3
    | nameError m => simp [collect_tk_alembicnodes, h1, h2]
    | exc m => simp [collect_tk_alembicnodes, h1, h2]
  · cases e with
    | attrError => exact absurd rfl h3
    | nameError m => simp [collect_tk_fbxnodes, h1, h2]
    | exc m => simp [collect_tk_fbxnodes, h1, h2]
  · cases e with
    | attrError => exact absurd rfl h3
    | nameError m => simp [collect_tk_mantranodes, h1, h2]
    | exc m => simp [collect_tk_mantranodes, h1, h2]

/-- Environment with only the cachenode app installed, whose node query
raises a non-AttributeError exception. -/
def envCacheBoom : Env := { env0 with cachenodeApp := some appNodesBoom }

/-- Witness for the amended C2 at concrete environments: a swallowed
AttributeError, a propagated usdrop failure, the arnold NameError, the
AttributeError from a parameterless generic node, and a propagated
non-AttributeError from the guarded cache collector. -/
theorem C2_exception_propagation_witness :
    (collect_tk_cachenodes envCacheAttr).exc = none ∧
    (collect_tk_rendermannodes envRmanRaise).exc = none ∧
    (collect_tk_usdropnodes envUsdropRaise).exc = some (PyExc.exc "boom") ∧
    (collect_tk_arnoldnodes envArnoldRaise).exc = some (PyExc.nameError "nodes") ∧
    (collect_node_outputs envParmMissing false false false).exc =
      some PyExc.attrError ∧
    (collect_tk_cachenodes envCacheBoom).exc = some (PyExc.exc "boom") :=
  ⟨(C2_exception_propagation envCacheAttr).1 appNodesAttrError rfl rfl,
   (C2_exception_propagation envRmanRaise).2.2.2.2.1 appRenderRaise
     (PyExc.exc "down") rfl (by decide) rfl,
   (C2_exception_propagation envUsdropRaise).2.2.2.2.2.2.1 appNodesBoom
     (PyExc.exc "boom") rfl rfl,
   (C2_exception_propagation envArnoldRaise).2.2.2.2.2.2.2.1 appArnoldRaise
     (PyExc.exc "fail") rfl (by decide) rfl,
   (C2_exception_propagation envParmMissing).2.2.2.2.2.2.2.2.1 false false
     nodeNoParm [] (by decide) rfl,
   (C2_exception_propagation envCacheBoom).2.2.2.2.2.2.2.2.2.1 appNodesBoom
     (PyExc.exc "boom") rfl rfl (by decide)⟩

/-- Predicate singling out warning-level log events. -/
def isWarnLog : Ev → Bool
  | Ev.log LogLevel.warning _ => true
  | _ => false

/-- C3 counterexample: when the usdrop node query fails, the routine
logs no warning at all and does not abort gracefully: the exception
escapes. -/
theorem C3_counterexample_usdrop_no_warning :
    ((collect_tk_usdropnodes envUsdropRaise).events.filter isWarnLog = [] ∧
     (collect_tk_usdropnodes envUsdropRaise).exc = some (PyExc.exc "boom")) := by
  decide

/-- C3 as amended: on a failing node-list query the cache, alembic, fbx
and mantra collectors log a warning and abort with no items, but only
for AttributeError, while any other exception there propagates with no
log at all; the renderman and karma collectors log at error level, not
warning, and abort; the usdrop collector has no guard, so the failure
propagates without any log; and the arnold collector logs at error
level but, lacking a return, continues reading host state and then
raises NameError. -/
theorem C3_node_query_failure_handling (env : Env) :
    (∀ app, env.cachenodeApp = some app →
       app.get_nodes = Except.error PyExc.attrError →
       collect_tk_cachenodes env =
         ⟨[], [Ev.checkApp "tk-houdini-cachenode" true,
               Ev.getNodes "tk-houdini-cachenode",
               Ev.log LogLevel.warning
                 "Unable to query the session for tk-houdini-cachenode instances."],
          false, none⟩) ∧
    (∀ app, env.mantraApp = some app →
       app.get_nodes = Except.error PyExc.attrError →
       collect_tk_mantranodes env =
         ⟨[], [Ev.checkApp "tk-houdini-mantranode" true,
               Ev.getNodes "tk-houdini-mantranode",
               Ev.log LogLevel.warning
                 "Unable to query the session for tk-houdini-mantranode instances. It looks like perhaps an older version of the app is in use which does not support querying the nodes. Consider updating the app to allow publishing their outputs."],
          false, none⟩) ∧
    (∀ app e, env.rendermanApp = some app →
       pyTruthy (env.getenv "RMANTREE") = true →
       app.get_all_nodes = Except.error e →
       collect_tk_rendermannodes env =
         ⟨[], [Ev.checkApp "tk-houdini-renderman" true,
               Ev.checkEnvVar "RMANTREE" true,
               Ev.getNodes "tk-houdini-renderman",
               Ev.log LogLevel.error
                 ("Could not receive renderman node instances. " ++ excStr e)],
          false, none⟩) ∧
    (∀ app e, env.karmaApp = some app →
       app.get_all_nodes = Except.error e →
       collect_tk_karmanodes env =
         ⟨[], [Ev.checkApp "tk-houdini-karma" true,
               Ev.getNodes "tk-houdini-karma",
               Ev.log LogLevel.error
                 ("Could not receive Karma node instances. " ++ excStr e)],
          false, none⟩) ∧
    (∀ app e, env.usdropApp = some app →
       app.get_nodes = Except.error e →
       collect_tk_usdropnodes env =
         ⟨[], [Ev.checkApp "tk-houdini-usdrop" true,
               Ev.getNodes "tk-houdini-usdrop"],
          false, some e⟩) ∧
    (∀ app e, env.arnoldApp = some app →
       pyTruthy (env.getenv "HTOA") = true →
       app.handler_getNodes = Except.error e →
       collect_tk_arnoldnodes env =
         ⟨[], [Ev.checkApp "tk-houdini-arnold" true,
               Ev.checkEnvVar "HTOA" true,
               Ev.getNodes "tk-houdini-arnold",
               Ev.log LogLevel.error
                 ("Could not receive arnold node instances. " ++ excStr e),
               Ev.getTemplate "tk-houdini-arnold" "work",
               Ev.getTemplate "tk-houdini-arnold" "publish",
               Ev.queryOutputRange "playbar"],
          false, some (PyExc.nameError "nodes")⟩) ∧
    (∀ app, env.alembicApp = some app →
       app.get_nodes = Except.error PyExc.attrError →
       collect_tk_alembicnodes env =
         ⟨[], [Ev.checkApp "tk-houdini-alembicnode" true,
               Ev.getNodes "tk-houdini-alembicnode",
               Ev.log LogLevel.warning
                 "Unable to query the session for tk-houdini-alembicnode instances. It looks like perhaps an older version of the app is in use which does not support querying the nodes. Consider updating the app to allow publishing their outputs."],
          false, none⟩) ∧
    (∀ app, env.fbxApp = some app →
       app.get_nodes = Except.error PyExc.attrError →
       collect_tk_fbxnodes env =
         ⟨[], [Ev.checkApp "tk-houdini-fbxnode" true,
               Ev.getNodes "tk-houdini-fbxnode",
               Ev.log LogLevel.warning
                 "Unable to query the session for tk-houdini-fbxnode instances. It looks like perhaps an older version of the app is in use which does not support querying the nodes. Consider updating the app to allow publishing their outputs."],
          false, none⟩) ∧
    (∀ app e, env.cachenodeApp = some app →
       app.get_nodes = Except.error e → e ≠ PyExc.attrError →
       collect_tk_cachenodes env =
         ⟨[], [Ev.checkApp "tk-houdini-cachenode" true,
               Ev.getNodes "tk-houdini-cachenode"],
          false, some e⟩) ∧
    (∀ app e, env.alembicApp = some app →
       app.get_nodes = Except.error e → e ≠ PyExc.attrError →
       collect_tk_alembicnodes env =
         ⟨[], [Ev.checkApp "tk-houdini-alembicnode" true,
               Ev.getNodes "tk-houdini-alembicnode"],
          false, some e⟩) ∧
    (∀ app e, env.fbxApp = some app →
       app.get_nodes = Except.error e → e ≠ PyExc.attrError →
       collect_tk_fbxnodes env =
         ⟨[], [Ev.checkApp "tk-houdini-fbxnode" true,
               Ev.getNodes "tk-houdini-fbxnode"],
          false, some e⟩) ∧
    (∀ app e, env.mantraApp = some app →
       app.get_nodes = Except.error e → e ≠ PyExc.attrError →
       collect_tk_mantranodes env =
         ⟨[], [Ev.checkApp "tk-houdini-mantranode" true,
               Ev.getNodes "tk-houdini-mantranode"],
          false, some e⟩) := by
  refine ⟨fun app h1 h2 => ?_, fun app h1 h2 => ?_, fun app e h1 h2 h3 => ?_,
          fun app e h1 h2 => ?_, fun app e h1 h2 => ?_, fun app e h1 h2 h3 => ?_,
          fun app h1 h2 => ?_, fun app h1 h2 => ?_,
          fun app e h1 h2 h3 => ?_, fun app e h1 h2 h3 => ?_,
          fun app e h1 h2 h3 => ?_, fun app e h1 h2 h3 => ?_⟩
  · simp [collect_tk_cachenodes, h1, h2]
  · simp [collect_tk_mantranodes, h1, h2]
  · simp [collect_tk_rendermannodes, h1, h2, h3]
  · simp [collect_tk_karmanodes, h1, h2]
  · simp [collect_tk_usdropnodes, h1, h2]
  · simp [collect_tk_arnoldnodes, h1, h2, h3]
  · simp [collect_tk_alembicnodes, h1, h2]
  · simp [collect_tk_fbxnodes, h1, h2]
  · cases e with
    | attrError => exact absurd rfl h3
    | nameError m => simp [collect_tk_cachenodes, h1, h2]
    | exc m => simp [collect_tk_cachenodes, h1, h2]
  · cases e with
    | attrError => exact absurd rfl h3
    | nameError m => simp [collect_tk_alembicnodes, h1, h2]
    | exc m => simp [collect_tk_alembicnodes, h1, h2]
  · cases e with
    | attrError => exact absurd rfl h3
    | nameError m => simp [collect_tk_fbxnodes, h1, h2]
    | exc m => simp [collect_tk_fbxnodes, h1, h2]
  · cases e with
    | attrError => exact absurd rfl h3
    | nameError m => simp [collect_tk_mantranodes, h1, h2]
    | exc m => simp [collect_tk_mantranodes, h1, h2]

/-- Environment with only the alembic app installed, whose node query
raises AttributeError. -/
def envAlembicAttr : Env := { env0 with alembicApp := some appNodesAttrError }

/-- Witness for the amended C3 at concrete environments. -/
theorem C3_node_query_failure_handling_witness :
    collect_tk_cachenodes envCacheAttr =
      ⟨[], [Ev.checkApp "tk-houdini-cachenode" true,
            Ev.getNodes "tk-houdini-cachenode",
            Ev.log LogLevel.warning
              "Unable to query the session for tk-houdini-cachenode instances."],
       false, none⟩ ∧
    collect_tk_usdropnodes envUsdropRaise =
      ⟨[], [Ev.checkApp "tk-houdini-usdrop" true,
            Ev.getNodes "tk-houdini-usdrop"],
       false, some (PyExc.exc "boom")⟩ ∧
    collect_tk_karmanodes envKarmaRaise =
      ⟨[], [Ev.checkApp "tk-houdini-karma" true,
            Ev.getNodes "tk-houdini-karma",
            Ev.log LogLevel.error
              ("Could not receive Karma node instances. " ++ excStr (PyExc.exc "down"))],
       false, none⟩ ∧
    collect_tk_alembicnodes envAlembicAttr =
      ⟨[], [Ev.checkApp "tk-houdini-alembicnode" true,
            Ev.getNodes "tk-houdini-alembicnode",
            Ev.log LogLevel.warning
              "Unable to query the session for tk-houdini-alembicnode instances. It looks like perhaps an older version of the app is in use which does not support querying the nodes. Consider updating the app to allow publishing their outputs."],
       false, none⟩ ∧
    collect_tk_cachenodes envCacheBoom =
      ⟨[], [Ev.checkApp "tk-houdini-cachenode" true,
            Ev.getNodes "tk-houdini-cachenode"],
       false, some (PyExc.exc "boom")⟩ :=
  ⟨(C3_node_query_failure_handling envCacheAttr).1 appNodesAttrError rfl rfl,
   (C3_node_query_failure_handling envUsdropRaise).2.2.2.2.1 appNodesBoom
     (PyExc.exc "boom") rfl rfl,
   (C3_node_query_failure_handling envKarmaRaise).2.2.2.1 appRenderRaise
     (PyExc.exc "down") rfl rfl,
   (C3_node_query_failure_handling envAlembicAttr).2.2.2.2.2.2.1
     appNodesAttrError rfl rfl,
   (C3_node_query_failure_handling envCacheBoom).2.2.2.2.2.2.2.2.1
     appNodesBoom (PyExc.exc "boom") rfl rfl (by decide)⟩

/-- In any run, mixed or not, the alembic node loop creates exactly one
item per node whose output path exists on disk. -/
theorem alembicNodeLoop_item_count (env : Env) (app : TkNodeApp) :
    ∀ nodes, (alembicNodeLoop env app nodes).1.length =
      (nodes.filter (fun n => env.fs.contains (app.get_output_path n))).length := by
  intro nodes
  induction nodes with
  | nil => simp [alembicNodeLoop]
  | cons n rest ih =>
    by_cases hp : app.get_output_path n ∈ env.fs
    · simp [alembicNodeLoop, hp, ih]
    · simp [alembicNodeLoop, hp, ih]

/-- In any run, the fbx node loop creates exactly one item per node
whose output path exists on disk. -/
theorem fbxNodeLoop_item_count (env : Env) (app : TkNodeApp) :
    ∀ nodes, (fbxNodeLoop env app nodes).1.length =
      (nodes.filter (fun n => env.fs.contains (app.get_output_path n))).length := by
  intro nodes
  induction nodes with
  | nil => simp [fbxNodeLoop]
  | cons n rest ih =>
    by_cases hp : app.get_output_path n ∈ env.fs
    · simp [fbxNodeLoop, hp, ih]
    · simp [fbxNodeLoop, hp, ih]

/-- In any run, the mantra node loop creates exactly one item per node
whose output path exists on disk. -/
theorem mantraNodeLoop_item_count (env : Env) (app : TkNodeApp) :
    ∀ nodes, (mantraNodeLoop env app nodes).1.length =
      (nodes.filter (fun n => env.fs.contains (app.get_output_path n))).length := by
  intro nodes
  induction nodes with
  | nil => simp [mantraNodeLoop]
  | cons n rest ih =>
    by_cases hp : app.get_output_path n ∈ env.fs
    · simp [mantraNodeLoop, hp, ih]
    · simp [mantraNodeLoop, hp, ih]

/-- In any run, the cache node loop creates exactly one item per node
whose output path exists on disk. -/
theorem cacheNodeLoop_item_count (env : Env) (app : TkNodeApp) :
    ∀ nodes, (cacheNodeLoop env app nodes).1.length =
      (nodes.filter (fun n => env.fs.contains (app.get_output_path n))).length := by
  intro nodes
  induction nodes with
  | nil => simp [cacheNodeLoop]
  | cons n rest ih =>
    by_cases hp : app.get_output_path n ∈ env.fs
    · simp [cacheNodeLoop, hp, ih]
    · simp [cacheNodeLoop, hp, ih]

/-- In any run, the usdrop node loop creates exactly one item per node
whose output path exists on disk. -/
theorem usdropNodeLoop_item_count (env : Env) (app : TkNodeApp) :
    ∀ nodes, (usdropNodeLoop env app nodes).1.length =
      (nodes.filter (fun n => env.fs.contains (app.get_output_path n))).length := by
  intro nodes
  induction nodes with
  | nil => simp [usdropNodeLoop]
  | cons n rest ih =>
    by_cases hp : app.get_output_path n ∈ env.fs
    · simp [usdropNodeLoop, hp, ih]
    · simp [usdropNodeLoop, hp, ih]

/-- In any run, the renderman path loop creates exactly one item per
output path that is not an xml stats file, exists on disk after frame
substitution, and belongs to a node not yet published. -/
theorem rendermanPathLoop_item_count (env : Env) (app : RenderApp) (n : HouNode)
    (ff lf : Int) : ∀ paths,
    (rendermanPathLoop env app n ff lf paths).1.length =
      (paths.filter (fun p => !pyEndsWith p ".xml" &&
        env.fs.contains (pyReplace p "$F4" (fmt04 ff)) &&
        !app.get_published_status n)).length := by
  intro paths
  induction paths with
  | nil => simp [rendermanPathLoop]
  | cons p rest ih =>
    by_cases hx : pyEndsWith p ".xml"
    · simp [rendermanPathLoop, hx, ih]
    · by_cases hfs : pyReplace p "$F4" (fmt04 ff) ∈ env.fs
      · by_cases hpub : app.get_published_status n = true
        · simp [rendermanPathLoop, hx, hfs, hpub, ih]
        · simp [rendermanPathLoop, hx, hfs, hpub, ih]
      · simp [rendermanPathLoop, hx, hfs, ih]

/-- In any run, the karma path loop creates exactly one item per output
path that is not an xml stats file, exists on disk after frame
substitution, and belongs to a node not yet published. -/
theorem karmaPathLoop_item_count (env : Env) (app : RenderApp) (n : HouNode)
    (ff lf : Int) : ∀ paths,
    (karmaPathLoop env app n ff lf paths).1.length =
      (paths.filter (fun p => !pyEndsWith p ".xml" &&
        env.fs.contains (pyReplace p "$F4" (fmt04 ff)) &&
        !app.get_published_status n)).length := by
  intro paths
  induction paths with
  | nil => simp [karmaPathLoop]
  | cons p rest ih =>
    by_cases hx : pyEndsWith p ".xml"
    · simp [karmaPathLoop, hx, ih]
    · by_cases hfs : pyReplace p "$F4" (fmt04 ff) ∈ env.fs
      · by_cases hpub : app.get_published_status n = true
        · simp [karmaPathLoop, hx, hfs, hpub, ih]
        · simp [karmaPathLoop, hx, hfs, hpub, ih]
      · simp [karmaPathLoop, hx, hfs, ih]

/-- An alembic app with one node whose output path is absent from disk. -/
def appAlembicMissing : TkNodeApp :=
  { get_nodes := Except.ok [{ nodePath := "/out/alembic1", parms := [] }]
    get_output_path := fun _ => "/proj/missing.abc"
    get_work_file_template := some "wt"
    get_publish_file_template := none }

/-- Environment with only that alembic app installed. -/
def envAlembicMissing : Env := { env0 with alembicApp := some appAlembicMissing }

/-- A cache app with one node whose output path is absent from disk. -/
def appCacheMissing : TkNodeApp :=
  { get_nodes := Except.ok [{ nodePath := "/out/cache1", parms := [] }]
    get_output_path := fun _ => "/proj/missing.bgeo"
    get_work_file_template := none
    get_publish_file_template := none }

/-- Environment with only that cache app installed. -/
def envCacheMissing : Env := { env0 with cachenodeApp := some appCacheMissing }

/-- A cache app with two nodes, one output missing and one existing. -/
def appCacheMixed : TkNodeApp :=
  { get_nodes := Except.ok [{ nodePath := "/out/cacheA", parms := [] },
                            { nodePath := "/out/cacheB", parms := [] }]
    get_output_path := fun n => if n.nodePath == "/out/cacheA"
      then "/proj/missing.bgeo" else "/proj/present.bgeo"
    get_work_file_template := none
    get_publish_file_template := none }

/-- Environment for the mixed-run part of the C4 witness: one of the
two cache outputs exists on disk. -/
def envCacheMixed : Env := { env0 with
  fs := ["/proj/present.bgeo"]
  cachenodeApp := some appCacheMixed }

/-- C4 counterexample: a cache node whose output path does not exist is
skipped without an item, but the skip is not silent: the routine logs
the warning out_path was not validated. -/
theorem C4_counterexample_cache_skip_warns :
    (collect_tk_cachenodes envCacheMissing).events.filter isWarnLog =
      [Ev.log LogLevel.warning "out_path was not validated."] ∧
    (collect_tk_cachenodes envCacheMissing).items = [] := by
  decide

/-- C4 as amended: in every routine and in any run, mixed or not, a
node whose resolved output path does not exist on disk produces no item
(each loop creates exactly one item per node passing the existence
check), and the skipped node contributes to the trace exactly the path
resolution and the failed check — nothing is logged about the skip in
the generic, alembic, fbx, mantra, arnold, renderman and karma
collectors — while the cache and usdrop collectors additionally log the
debug out_path line and the warning out_path was not validated. -/
theorem C4_missing_path_skip (env : Env) :
    (∀ app n rest, app.get_output_path n ∉ env.fs →
       alembicNodeLoop env app (n :: rest) =
         ((alembicNodeLoop env app rest).1,
          [Ev.resolvePath (app.get_output_path n),
           Ev.checkExists (app.get_output_path n) (app.get_output_path n)
             false] ++ (alembicNodeLoop env app rest).2)) ∧
    (∀ app n rest, app.get_output_path n ∉ env.fs →
       fbxNodeLoop env app (n :: rest) =
         ((fbxNodeLoop env app rest).1,
          [Ev.resolvePath (app.get_output_path n),
           Ev.checkExists (app.get_output_path n) (app.get_output_path n)
             false] ++ (fbxNodeLoop env app rest).2)) ∧
    (∀ app n rest, app.get_output_path n ∉ env.fs →
       mantraNodeLoop env app (n :: rest) =
         ((mantraNodeLoop env app rest).1,
          [Ev.resolvePath (app.get_output_path n),
           Ev.checkExists (app.get_output_path n) (app.get_output_path n)
             false] ++ (mantraNodeLoop env app rest).2)) ∧
    (∀ app n rest, app.get_output_path n ∉ env.fs →
       cacheNodeLoop env app (n :: rest) =
         ((cacheNodeLoop env app rest).1,
          [Ev.resolvePath (app.get_output_path n),
           Ev.log LogLevel.debug ("out_path is " ++ app.get_output_path n),
           Ev.checkExists (app.get_output_path n) (app.get_output_path n) false,
           Ev.log LogLevel.warning "out_path was not validated."] ++
          (cacheNodeLoop env app rest).2)) ∧
    (∀ app n rest, app.get_output_path n ∉ env.fs →
       usdropNodeLoop env app (n :: rest) =
         ((usdropNodeLoop env app rest).1,
          [Ev.resolvePath (app.get_output_path n),
           Ev.log LogLevel.debug ("out_path is " ++ app.get_output_path n),
           Ev.checkExists (app.get_output_path n) (app.get_output_path n) false,
           Ev.log LogLevel.warning "out_path was not validated."] ++
          (usdropNodeLoop env app rest).2)) ∧
    (∀ app ff lf n rest, app.handler_getOutputPath n ∉ env.fs →
       arnoldNodeLoop env app ff lf (n :: rest) =
         ((arnoldNodeLoop env app ff lf rest).1,
          [Ev.resolvePath (app.handler_getOutputPath n),
           Ev.checkExists (app.handler_getOutputPath n)
             (app.handler_getOutputPath n) false] ++
          (arnoldNodeLoop env app ff lf rest).2.1,
          (arnoldNodeLoop env app ff lf rest).2.2.1,
          (arnoldNodeLoop env app ff lf rest).2.2.2)) ∧
    (∀ app n ff lf p rest, pyEndsWith p ".xml" = false →
       pyReplace p "$F4" (fmt04 ff) ∉ env.fs →
       rendermanPathLoop env app n ff lf (p :: rest) =
         ((rendermanPathLoop env app n ff lf rest).1,
          [Ev.checkExists p (pyReplace p "$F4" (fmt04 ff)) false] ++
          (rendermanPathLoop env app n ff lf rest).2)) ∧
    (∀ app n ff lf p rest, pyEndsWith p ".xml" = false →
       pyReplace p "$F4" (fmt04 ff) ∉ env.fs →
       karmaPathLoop env app n ff lf (p :: rest) =
         ((karmaPathLoop env app n ff lf rest).1,
          [Ev.checkExists p (pyReplace p "$F4" (fmt04 ff)) false] ++
          (karmaPathLoop env app n ff lf rest).2)) ∧
    (∀ ty pn path n rest, n.parm pn = some path → path ∉ env.fs →
       nodeOutputsNodeLoop env ty pn (n :: rest) =
         ((nodeOutputsNodeLoop env ty pn rest).1,
          [Ev.resolvePath path, Ev.checkExists path path false] ++
          (nodeOutputsNodeLoop env ty pn rest).2.1,
          (nodeOutputsNodeLoop env ty pn rest).2.2)) ∧
    (∀ app nodes, (alembicNodeLoop env app nodes).1.length =
       (nodes.filter (fun n => env.fs.contains (app.get_output_path n))).length) ∧
    (∀ app nodes, (fbxNodeLoop env app nodes).1.length =
       (nodes.filter (fun n => env.fs.contains (app.get_output_path n))).length) ∧
    (∀ app nodes, (mantraNodeLoop env app nodes).1.length =
       (nodes.filter (fun n => env.fs.contains (app.get_output_path n))).length) ∧
    (∀ app nodes, (cacheNodeLoop env app nodes).1.length =
       (nodes.filter (fun n => env.fs.contains (app.get_output_path n))).length) ∧
    (∀ app nodes, (usdropNodeLoop env app nodes).1.length =
       (nodes.filter (fun n => env.fs.contains (app.get_output_path n))).length) ∧
    (∀ app n ff lf paths, (rendermanPathLoop env app n ff lf paths).1.length =
       (paths.filter (fun p => !pyEndsWith p ".xml" &&
         env.fs.contains (pyReplace p "$F4" (fmt04 ff)) &&
         !app.get_published_status n)).length) ∧
    (∀ app n ff lf paths, (karmaPathLoop env app n ff lf paths).1.length =
       (paths.filter (fun p => !pyEndsWith p ".xml" &&
         env.fs.contains (pyReplace p "$F4" (fmt04 ff)) &&
         !app.get_published_status n)).length) := by
  refine ⟨fun app n rest h => ?_, fun app n rest h => ?_, fun app n rest h => ?_,
          fun app n rest h => ?_, fun app n rest h => ?_,
          fun app ff lf n rest h => ?_,
          fun app n ff lf p rest hx hfs => ?_, fun app n ff lf p rest hx hfs => ?_,
          fun ty pn path n rest hparm h => ?_,
          fun app nodes => alembicNodeLoop_item_count env app nodes,
          fun app nodes => fbxNodeLoop_item_count env app nodes,
          fun app nodes => mantraNodeLoop_item_count env app nodes,
          fun app nodes => cacheNodeLoop_item_count env app nodes,
          fun app nodes => usdropNodeLoop_item_count env app nodes,
          fun app n ff lf paths => rendermanPathLoop_item_count env app n ff lf paths,
          fun app n ff lf paths => karmaPathLoop_item_count env app n ff lf paths⟩
  · simp [alembicNodeLoop, h]
  · simp [fbxNodeLoop, h]
  · simp [mantraNodeLoop, h]
  · simp [cacheNodeLoop, h]
  · simp [usdropNodeLoop, h]
  · simp [arnoldNodeLoop, h]
  · simp [rendermanPathLoop, hx, hfs]
  · simp [karmaPathLoop, hx, hfs]
  · simp [nodeOutputsNodeLoop, hparm, h]

/-- Witness for the amended C4: a concrete mixed run over one missing
and one existing cache node creates exactly the one item for the
existing path, the alembic skip-step application, and the cache
skip-step application showing the warning for the skipped node. -/
theorem C4_missing_path_skip_witness :
    alembicNodeLoop envAlembicMissing appAlembicMissing
        [{ nodePath := "/out/alembic1", parms := [] }] =
      ((alembicNodeLoop envAlembicMissing appAlembicMissing []).1,
       [Ev.resolvePath (appAlembicMissing.get_output_path
          { nodePath := "/out/alembic1", parms := [] }),
        Ev.checkExists (appAlembicMissing.get_output_path
          { nodePath := "/out/alembic1", parms := [] })
          (appAlembicMissing.get_output_path
          { nodePath := "/out/alembic1", parms := [] }) false] ++
       (alembicNodeLoop envAlembicMissing appAlembicMissing []).2) ∧
    cacheNodeLoop envCacheMissing appCacheMissing
        [{ nodePath := "/out/cache1", parms := [] }] =
      ((cacheNodeLoop envCacheMissing appCacheMissing []).1,
       [Ev.resolvePath (appCacheMissing.get_output_path
          { nodePath := "/out/cache1", parms := [] }),
        Ev.log LogLevel.debug ("out_path is " ++ appCacheMissing.get_output_path
          { nodePath := "/out/cache1", parms := [] }),
        Ev.checkExists (appCacheMissing.get_output_path
          { nodePath := "/out/cache1", parms := [] })
          (appCacheMissing.get_output_path
          { nodePath := "/out/cache1", parms := [] }) false,
        Ev.log LogLevel.warning "out_path was not validated."] ++
       (cacheNodeLoop envCacheMissing appCacheMissing []).2) ∧
    (cacheNodeLoop envCacheMixed appCacheMixed
        [{ nodePath := "/out/cacheA", parms := [] },
         { nodePath := "/out/cacheB", parms := [] }]).1.length =
      ([{ nodePath := "/out/cacheA", parms := [] },
        { nodePath := "/out/cacheB", parms := [] }].filter
         (fun n => envCacheMixed.fs.contains (appCacheMixed.get_output_path n))).length :=
  ⟨(C4_missing_path_skip envAlembicMissing).1 appAlembicMissing
     { nodePath := "/out/alembic1", parms := [] } [] (by decide),
   (C4_missing_path_skip envCacheMissing).2.2.2.1 appCacheMissing
     { nodePath := "/out/cache1", parms := [] } [] (by decide),
   (C4_missing_path_skip envCacheMixed).2.2.2.2.2.2.2.2.2.2.2.2.1
     appCacheMixed
     [{ nodePath := "/out/cacheA", parms := [] },
      { nodePath := "/out/cacheB", parms := [] }]⟩

/-- The alembic routine reports its collected flag exactly when it
created at least one item. -/
theorem alembic_flag_eq_items_nonempty (env : Env) :
    (collect_tk_alembicnodes env).flag =
      !(collect_tk_alembicnodes env).items.isEmpty := by
  unfold collect_tk_alembicnodes
  cases env.alembicApp with
  | none => simp
  | some app =>
    cases happ : app.get_nodes with
    | error e => cases e <;> simp [happ]
    | ok nodes => simp [happ]

/-- The fbx routine reports its collected flag exactly when it created
at least one item. -/
theorem fbx_flag_eq_items_nonempty (env : Env) :
    (collect_tk_fbxnodes env).flag =
      !(collect_tk_fbxnodes env).items.isEmpty := by
  unfold collect_tk_fbxnodes
  cases env.fbxApp with
  | none => simp
  | some app =>
    cases happ : app.get_nodes with
    | error e => cases e <;> simp [happ]
    | ok nodes => simp [happ]

/-- The mantra routine reports its collected flag exactly when it
created at least one item. -/
theorem mantra_flag_eq_items_nonempty (env : Env) :
    (collect_tk_mantranodes env).flag =
      !(collect_tk_mantranodes env).items.isEmpty := by
  unfold collect_tk_mantranodes
  cases env.mantraApp with
  | none => simp
  | some app =>
    cases happ : app.get_nodes with
    | error e => cases e <;> simp [happ]
    | ok nodes => simp [happ]

/-- A table entry whose step yields no items and no exception
contributes nothing to the items of the output-table iteration. -/
theorem nodeOutputsTypes_skip_items (env : Env) (aC fC mC : Bool)
    (t : String × String) (rest : List (String × String)) (evs : List Ev)
    (h : nodeOutputsTypeStep env aC fC mC t.1 t.2 = ([], evs, none)) :
    (nodeOutputsTypes env aC fC mC (t :: rest)).1 =
      (nodeOutputsTypes env aC fC mC rest).1 := by
  simp [nodeOutputsTypes, h]

/-- Item equality of output-table iterations is preserved by a common
head entry. -/
theorem nodeOutputsTypes_cons_items (env : Env) (aC fC mC : Bool)
    (t : String × String) (rest rest' : List (String × String))
    (h : (nodeOutputsTypes env aC fC mC rest).1 =
         (nodeOutputsTypes env aC fC mC rest').1) :
    (nodeOutputsTypes env aC fC mC (t :: rest)).1 =
      (nodeOutputsTypes env aC fC mC (t :: rest')).1 := by
  simp only [nodeOutputsTypes]
  cases hexc : (nodeOutputsTypeStep env aC fC mC t.1 t.2).2.2 <;> simp [hexc, h]

/-- C8: each collected flag is reported exactly when the corresponding
toolkit routine created at least one item, and a set flag makes
collect_node_outputs process the output table as if the matching
generic node type (alembic, fbx or ifd respectively) were absent, so no
generic item is created for a node kind already covered by its toolkit
collector. -/
theorem C8_collected_flags_skip_generic_types (env : Env) (aC fC mC : Bool) :
    (collect_node_outputs env true fC mC).items =
      (nodeOutputsTypes env true fC mC
        [("fbx", "filename"), ("comp", "copoutput"), ("ifd", "vm_picture"),
         ("opengl", "picture"), ("wren", "wr_picture")]).1 ∧
    (collect_node_outputs env aC true mC).items =
      (nodeOutputsTypes env aC true mC
        [("alembic", "filename"), ("comp", "copoutput"), ("ifd", "vm_picture"),
         ("opengl", "picture"), ("wren", "wr_picture")]).1 ∧
    (collect_node_outputs env aC fC true).items =
      (nodeOutputsTypes env aC fC true
        [("alembic", "filename"), ("fbx", "filename"), ("comp", "copoutput"),
         ("opengl", "picture"), ("wren", "wr_picture")]).1 ∧
    (collect_tk_alembicnodes env).flag =
      !(collect_tk_alembicnodes env).items.isEmpty ∧
    (collect_tk_fbxnodes env).flag =
      !(collect_tk_fbxnodes env).items.isEmpty ∧
    (collect_tk_mantranodes env).flag =
      !(collect_tk_mantranodes env).items.isEmpty := by
  refine ⟨?_, ?_, ?_, alembic_flag_eq_items_nonempty env,
          fbx_flag_eq_items_nonempty env, mantra_flag_eq_items_nonempty env⟩
  · have h : nodeOutputsTypeStep env true fC mC "alembic" "filename" =
        ([], [Ev.log LogLevel.debug
           "Skipping regular alembic node collection since tk alembic nodes were collected. "],
         none) := by
      simp [nodeOutputsTypeStep]
    simpa [collect_node_outputs, houdiniOutputs] using
      nodeOutputsTypes_skip_items env true fC mC ("alembic", "filename") _ _ h
  · have h : nodeOutputsTypeStep env aC true mC "fbx" "filename" =
        ([], [Ev.log LogLevel.debug
           "Skipping regular fbx node collection since tk fbx nodes were collected. "],
         none) := by
      simp [nodeOutputsTypeStep]
    have hin := nodeOutputsTypes_skip_items env aC true mC ("fbx", "filename")
      [("comp", "copoutput"), ("ifd", "vm_picture"), ("opengl", "picture"),
       ("wren", "wr_picture")] _ h
    simpa [collect_node_outputs, houdiniOutputs] using
      nodeOutputsTypes_cons_items env aC true mC ("alembic", "filename") _ _ hin
  · have h : nodeOutputsTypeStep env aC fC true "ifd" "vm_picture" =
        ([], [Ev.log LogLevel.debug
           "Skipping regular mantra node collection since tk mantra nodes were collected. "],
         none) := by
      simp [nodeOutputsTypeStep]
    have hin := nodeOutputsTypes_skip_items env aC fC true ("ifd", "vm_picture")
      [("opengl", "picture"), ("wren", "wr_picture")] _ h
    have h2 := nodeOutputsTypes_cons_items env aC fC true ("comp", "copoutput") _ _ hin
    have h3 := nodeOutputsTypes_cons_items env aC fC true ("fbx", "filename") _ _ h2
    simpa [collect_node_outputs, houdiniOutputs] using
      nodeOutputsTypes_cons_items env aC fC true ("alembic", "filename") _ _ h3

/-- A renderman path loop over a node already marked published creates
no items and never calls the base collector. -/
theorem rendermanPathLoop_published (env : Env) (app : RenderApp) (n : HouNode)
    (ff lf : Int) (h : app.get_published_status n = true) (paths : List String) :
    (rendermanPathLoop env app n ff lf paths).1 = [] ∧
    ∀ p, Ev.collectFile p ∉ (rendermanPathLoop env app n ff lf paths).2 := by
  induction paths with
  | nil => simp [rendermanPathLoop]
  | cons p rest ih =>
    simp only [rendermanPathLoop]
    by_cases hx : pyEndsWith p ".xml"
    · simp [hx, ih]
    · by_cases hp : pyReplace p "$F4" (fmt04 ff) ∈ env.fs
      · simp [hx, hp, h, ih]
      · simp [hx, hp, ih]

/-- Every base-collector call of the renderman path loop is for a path
that does not end in xml. -/
theorem rendermanPathLoop_no_xml (env : Env) (app : RenderApp) (n : HouNode)
    (ff lf : Int) (paths : List String) :
    ∀ p, Ev.collectFile p ∈ (rendermanPathLoop env app n ff lf paths).2 →
      pyEndsWith p ".xml" = false := by
  induction paths with
  | nil => simp [rendermanPathLoop]
  | cons p rest ih =>
    simp only [rendermanPathLoop]
    by_cases hx : pyEndsWith p ".xml"
    · simpa [hx] using ih
    · by_cases hp : pyReplace p "$F4" (fmt04 ff) ∈ env.fs
      · by_cases hpub : app.get_published_status n = true
        · simpa [hx, hp, hpub] using ih
        · intro q hq
          simp [hx, hp, hpub] at hq
          rcases hq with hq | hq
          · subst hq; simpa using hx
          · exact ih q hq
      · simpa [hx, hp] using ih

/-- Node-level consequence for renderman when every node reports as
published. -/
theorem rendermanNodeLoop_published (env : Env) (app : RenderApp)
    (h : ∀ n, app.get_published_status n = true) (nodes : List HouNode) :
    (rendermanNodeLoop env app nodes).1 = [] ∧
    ∀ p, Ev.collectFile p ∉ (rendermanNodeLoop env app nodes).2 := by
  induction nodes with
  | nil => simp [rendermanNodeLoop]
  | cons n rest ih =>
    simp only [rendermanNodeLoop]
    cases hq : app.get_output_paths n with
    | error e => simp [hq, ih]
    | ok paths =>
      have hpl := rendermanPathLoop_published env app n
        (app.get_output_range n).1 (app.get_output_range n).2 (h n) paths
      simp [hq, ih, hpl.1, fun p => hpl.2 p]

/-- Every base-collector call of the renderman node loop is for a path
that does not end in xml. -/
theorem rendermanNodeLoop_no_xml (env : Env) (app : RenderApp)
    (nodes : List HouNode) :
    ∀ p, Ev.collectFile p ∈ (rendermanNodeLoop env app nodes).2 →
      pyEndsWith p ".xml" = false := by
  induction nodes with
  | nil => simp [rendermanNodeLoop]
  | cons n rest ih =>
    simp only [rendermanNodeLoop]
    cases hq : app.get_output_paths n with
    | error e => simpa [hq] using ih
    | ok paths =>
      intro p hp
      simp [hq] at hp
      rcases hp with hp | hp
      · exact rendermanPathLoop_no_xml env app n _ _ paths p hp
      · exact ih p hp

/-- A karma path loop over a node already marked published creates no
items and never calls the base collector. -/
theorem karmaPathLoop_published (env : Env) (app : RenderApp) (n : HouNode)
    (ff lf : Int) (h : app.get_published_status n = true) (paths : List String) :
    (karmaPathLoop env app n ff lf paths).1 = [] ∧
    ∀ p, Ev.collectFile p ∉ (karmaPathLoop env app n ff lf paths).2 := by
  induction paths with
  | nil => simp [karmaPathLoop]
  | cons p rest ih =>
    simp only [karmaPathLoop]
    by_cases hx : pyEndsWith p ".xml"
    · simp [hx, ih]
    · by_cases hp : pyReplace p "$F4" (fmt04 ff) ∈ env.fs
      · simp [hx, hp, h, ih]
      · simp [hx, hp, ih]

/-- Every base-collector call of the karma path loop is for a path that
does not end in xml. -/
theorem karmaPathLoop_no_xml (env : Env) (app : RenderApp) (n : HouNode)
    (ff lf : Int) (paths : List String) :
    ∀ p, Ev.collectFile p ∈ (karmaPathLoop env app n ff lf paths).2 →
      pyEndsWith p ".xml" = false := by
  induction paths with
  | nil => simp [karmaPathLoop]
  | cons p rest ih =>
    simp only [karmaPathLoop]
    by_cases hx : pyEndsWith p ".xml"
    · simpa [hx] using ih
    · by_cases hp : pyReplace p "$F4" (fmt04 ff) ∈ env.fs
      · by_cases hpub : app.get_published_status n = true
        · simpa [hx, hp, hpub] using ih
        · intro q hq
          simp [hx, hp, hpub] at hq
          rcases hq with hq | hq
          · subst hq; simpa using hx
          · exact ih q hq
      · simpa [hx, hp] using ih

/-- Node-level consequence for karma when every node reports as
published. -/
theorem karmaNodeLoop_published (env : Env) (app : RenderApp)
    (h : ∀ n, app.get_published_status n = true) (nodes : List HouNode) :
    (karmaNodeLoop env app nodes).1 = [] ∧
    ∀ p, Ev.collectFile p ∉ (karmaNodeLoop env app nodes).2 := by
  induction nodes with
  | nil => simp [karmaNodeLoop]
  | cons n rest ih =>
    simp only [karmaNodeLoop]
    cases hq : app.get_output_paths n with
    | error e => simp [hq, ih]
    | ok paths =>
      have hpl := karmaPathLoop_published env app n
        (app.get_output_range n).1 (app.get_output_range n).2 (h n) paths
      simp [hq, ih, hpl.1, fun p => hpl.2 p]

/-- Every base-collector call of the karma node loop is for a path that
does not end in xml. -/
theorem karmaNodeLoop_no_xml (env : Env) (app : RenderApp)
    (nodes : List HouNode) :
    ∀ p, Ev.collectFile p ∈ (karmaNodeLoop env app nodes).2 →
      pyEndsWith p ".xml" = false := by
  induction nodes with
  | nil => simp [karmaNodeLoop]
  | cons n rest ih =>
    simp only [karmaNodeLoop]
    cases hq : app.get_output_paths n with
    | error e => simpa [hq] using ih
    | ok paths =>
      intro p hp
      simp [hq] at hp
      rcases hp with hp | hp
      · exact karmaPathLoop_no_xml env app n _ _ paths p hp
      · exact ih p hp

/-- C9: in the renderman and karma collectors, a node whose published
status is truthy yields no items even when its outputs exist on disk,
and an output path ending in xml is never passed to the base collector
regardless of published status. -/
theorem C9_published_status_and_xml_filter (env : Env) :
    (∀ app, env.rendermanApp = some app →
       (∀ n, app.get_published_status n = true) →
       (collect_tk_rendermannodes env).items = []) ∧
    (∀ app, env.karmaApp = some app →
       (∀ n, app.get_published_status n = true) →
       (collect_tk_karmanodes env).items = []) ∧
    (∀ p, Ev.collectFile p ∈ (collect_tk_rendermannodes env).events →
       pyEndsWith p ".xml" = false) ∧
    (∀ p, Ev.collectFile p ∈ (collect_tk_karmanodes env).events →
       pyEndsWith p ".xml" = false) := by
  refine ⟨fun app h1 h2 => ?_, fun app h1 h2 => ?_, fun p hp => ?_, fun p hp => ?_⟩
  · unfold collect_tk_rendermannodes
    rw [h1]
    by_cases hr : pyTruthy (env.getenv "RMANTREE")
    · cases hn : app.get_all_nodes with
      | error e => simp [hr, hn]
      | ok nodes => simp [hr, hn, (rendermanNodeLoop_published env app h2 nodes).1]
    · simp [hr]
  · unfold collect_tk_karmanodes
    rw [h1]
    cases hn : app.get_all_nodes with
    | error e => simp [hn]
    | ok nodes => simp [hn, (karmaNodeLoop_published env app h2 nodes).1]
  · revert hp
    unfold collect_tk_rendermannodes
    cases h1 : env.rendermanApp with
    | none => simp
    | some app =>
      by_cases hr : pyTruthy (env.getenv "RMANTREE")
      · cases hn : app.get_all_nodes with
        | error e => simp [hr, hn]
        | ok nodes =>
          intro hp
          simp [hr, hn] at hp
          exact rendermanNodeLoop_no_xml env app nodes p hp
      · simp [hr]
  · revert hp
    unfold collect_tk_karmanodes
    cases h1 : env.karmaApp with
    | none => simp
    | some app =>
      cases hn : app.get_all_nodes with
      | error e => simp [hn]
      | ok nodes =>
        intro hp
        simp [hn] at hp
        exact karmaNodeLoop_no_xml env app nodes p hp

/-- A renderman app whose single node is already published although its
output exists on disk. -/
def appRmanPublished : RenderApp :=
  { get_all_nodes := Except.ok [nodeNoParm]
    get_work_template := some "wtpl"
    get_render_template := { tname := "rtpl", fields := fun _ => [("output", "beauty")] }
    get_output_range := fun _ => (1, 5)
    get_output_paths := fun _ => Except.ok ["/rend/shot.$F4.exr"]
    get_published_status := fun _ => true }

/-- Environment for the published-status part of the C9 witness. -/
def envRmanPublished : Env := { env0 with
  fs := ["/rend/shot.0001.exr"]
  getenv := fun v => if v == "RMANTREE" then some "/opt/rman" else none
  rendermanApp := some appRmanPublished }

/-- A karma app whose single node is not yet published and has an
output on disk, so the routine does call the base collector. -/
def appKarmaLive : RenderApp :=
  { get_all_nodes := Except.ok [nodeNoParm]
    get_work_template := some "wtpl"
    get_render_template := { tname := "rtpl", fields := fun _ => [("output", "beauty")] }
    get_output_range := fun _ => (1, 5)
    get_output_paths := fun _ => Except.ok ["/rend/shot.$F4.exr"]
    get_published_status := fun _ => false }

/-- Environment for the xml part of the C9 witness. -/
def envKarmaLive : Env := { env0 with
  fs := ["/rend/shot.0001.exr"]
  karmaApp := some appKarmaLive }

/-- Witness for C9: a published node with an existing output yields no
renderman items, and a path the karma collector did hand to the base
collector indeed does not end in xml. -/
theorem C9_published_status_and_xml_filter_witness :
    (collect_tk_rendermannodes envRmanPublished).items = [] ∧
    pyEndsWith "/rend/shot.$F4.exr" ".xml" = false :=
  ⟨(C9_published_status_and_xml_filter envRmanPublished).1 appRmanPublished rfl
     (fun _ => rfl),
   (C9_published_status_and_xml_filter envKarmaLive).2.2.2 "/rend/shot.$F4.exr"
     (by decide)⟩

/-- The five step kinds named by the specification: (a) integration
check, (b) node and template query, (c) per-node path resolution,
(d) existence check, (e) item creation and decoration. -/
inductive StepTag where
  | a | b | c | d | e
deriving Repr, DecidableEq

/-- Classification of a collector action as one of the five specified
steps; log messages, flag updates, environment-variable probes and the
renderman or karma specific queries are not among them. -/
def stepOf : Ev → Option StepTag
  | Ev.checkApp _ _ => some StepTag.a
  | Ev.getNodes _ => some StepTag.b
  | Ev.getTemplate _ _ => some StepTag.b
  | Ev.resolvePath _ => some StepTag.c
  | Ev.checkExists _ _ _ => some StepTag.d
  | Ev.collectFile _ => some StepTag.e
  | Ev.decorate _ => some StepTag.e
  | _ => none

/-- Projection of a trace to the specified steps it contains, in
order. -/
def stepsOf (evs : List Ev) : List StepTag :=
  evs.filterMap stepOf

/-- A mantra app with one node whose output exists, so an item is
collected and the mantra flag is set. -/
def appMantraLive : TkNodeApp :=
  { get_nodes := Except.ok [nodeNoParm]
    get_output_path := fun _ => "/ifds/frame.exr"
    get_work_file_template := some "wt"
    get_publish_file_template := none }

/-- Environment with only that mantra app installed. -/
def envMantraLive : Env := { env0 with
  fs := ["/ifds/frame.exr"]
  mantraApp := some appMantraLive }

/-- C6 counterexample: a successful mantra collection performs actions
beyond the five specified steps: it sets the mantra-collected instance
flag (and logs messages), so the routine does not consist of the five
steps alone. -/
theorem C6_counterexample_extra_side_effects :
    Ev.setFlag "mantra" ∈ (collect_tk_mantranodes envMantraLive).events ∧
    stepOf (Ev.setFlag "mantra") = none ∧
    Ev.log LogLevel.info "Processing sgtk_mantra node: /out/bare" ∈
      (collect_tk_mantranodes envMantraLive).events ∧
    stepOf (Ev.log LogLevel.info "Processing sgtk_mantra node: /out/bare") = none := by
  decide

/-- The step projection of the mantra node loop: steps c and d for
every node, then es exactly for the nodes whose output exists. -/
theorem mantraNodeLoop_steps (env : Env) (app : TkNodeApp) (nodes : List HouNode) :
    stepsOf (mantraNodeLoop env app nodes).2 =
      catMap (fun n =>
        [StepTag.c, StepTag.d] ++
        (if app.get_output_path n ∈ env.fs then
           [StepTag.e, StepTag.e] ++
           (match app.get_work_file_template with
            | some _ => [StepTag.e]
            | none => [])
         else [])) nodes := by
  induction nodes with
  | nil => simp [mantraNodeLoop, stepsOf, catMap]
  | cons n rest ih =>
    by_cases hp : app.get_output_path n ∈ env.fs
    · cases hw : app.get_work_file_template with
      | none =>
        simp [hw, stepsOf] at ih
        simp [mantraNodeLoop, stepsOf, catMap, hp, hw, stepOf, ih]
      | some wt =>
        simp [hw, stepsOf] at ih
        simp [mantraNodeLoop, stepsOf, catMap, hp, hw, stepOf, ih]
    · simp [stepsOf] at ih
      simp [mantraNodeLoop, stepsOf, catMap, hp, stepOf, ih]

/-- The step projection of the cache node loop. -/
theorem cacheNodeLoop_steps (env : Env) (app : TkNodeApp) (nodes : List HouNode) :
    stepsOf (cacheNodeLoop env app nodes).2 =
      catMap (fun n =>
        [StepTag.c, StepTag.d] ++
        (if app.get_output_path n ∈ env.fs then
           [StepTag.e, StepTag.e] ++
           (match app.get_work_file_template with
            | some _ => [StepTag.e]
            | none => []) ++
           (match app.get_publish_file_template with
            | some _ => [StepTag.e]
            | none => [])
         else [])) nodes := by
  induction nodes with
  | nil => simp [cacheNodeLoop, stepsOf, catMap]
  | cons n rest ih =>
    by_cases hp : app.get_output_path n ∈ env.fs
    · cases hw : app.get_work_file_template <;>
        cases hpt : app.get_publish_file_template <;>
        [skip; skip; skip; skip] <;>
        first
        | (simp [hw, hpt, stepsOf] at ih
           simp [cacheNodeLoop, stepsOf, catMap, hp, hw, hpt, stepOf, ih])
    · simp [stepsOf] at ih
      simp [cacheNodeLoop, stepsOf, catMap, hp, stepOf, ih]

/-- C6 as amended: when the app is installed and the node query
succeeds, the mantra and cache collectors perform the specified steps
in the fixed order a, then b (nodes and templates), then per node c and
d, with the e steps exactly for nodes whose output exists; but beyond
these steps the routines also log messages and, for mantra, set the
collected flag, so the five steps are not the only effects. -/
theorem C6_step_sequence_in_order (env : Env) :
    (∀ app nodes, env.mantraApp = some app →
       app.get_nodes = Except.ok nodes →
       stepsOf (collect_tk_mantranodes env).events =
         [StepTag.a, StepTag.b, StepTag.b] ++
         catMap (fun n =>
           [StepTag.c, StepTag.d] ++
           (if app.get_output_path n ∈ env.fs then
              [StepTag.e, StepTag.e] ++
              (match app.get_work_file_template with
               | some _ => [StepTag.e]
               | none => [])
            else [])) nodes) ∧
    (∀ app nodes, env.cachenodeApp = some app →
       app.get_nodes = Except.ok nodes →
       stepsOf (collect_tk_cachenodes env).events =
         [StepTag.a, StepTag.b, StepTag.b, StepTag.b] ++
         catMap (fun n =>
           [StepTag.c, StepTag.d] ++
           (if app.get_output_path n ∈ env.fs then
              [StepTag.e, StepTag.e] ++
              (match app.get_work_file_template with
               | some _ => [StepTag.e]
               | none => []) ++
              (match app.get_publish_file_template with
               | some _ => [StepTag.e]
               | none => [])
            else [])) nodes) := by
  refine ⟨fun app nodes h1 h2 => ?_, fun app nodes h1 h2 => ?_⟩
  · have hl := mantraNodeLoop_steps env app nodes
    simp [stepsOf] at hl
    simp [collect_tk_mantranodes, h1, h2, stepsOf, stepOf, hl]
  · have hl := cacheNodeLoop_steps env app nodes
    simp [stepsOf] at hl
    simp [collect_tk_cachenodes, h1, h2, stepsOf, stepOf, hl]

/-- Witness for the amended C6 at the live mantra environment. -/
theorem C6_step_sequence_in_order_witness :
    stepsOf (collect_tk_mantranodes envMantraLive).events =
      [StepTag.a, StepTag.b, StepTag.b] ++
      catMap (fun n =>
        [StepTag.c, StepTag.d] ++
        (if appMantraLive.get_output_path n ∈ envMantraLive.fs then
           [StepTag.e, StepTag.e] ++
           (match appMantraLive.get_work_file_template with
            | some _ => [StepTag.e]
            | none => [])
         else [])) [nodeNoParm] :=
  (C6_step_sequence_in_order envMantraLive).1 appMantraLive [nodeNoParm] rfl rfl

/-- The metadata keys the specification names: path templates, frame
range bounds, the colorspace tag and the publish name. -/
def allowedKeys : List String :=
  ["work_template", "publish_template", "first_frame", "last_frame",
   "colorspace", "publish_name"]

/-- An item whose string-keyed properties all come from the allowed
set. -/
def keysOk (it : Item) : Prop :=
  ∀ p ∈ it.props, p.1 ∈ allowedKeys

/-- A pair of a dictionary after insertion either carries the inserted
key or was present before. -/
theorem mem_dictInsert {d : List (String × α)} {k : String} {v : α}
    {p : String × α} (h : p ∈ dictInsert d k v) : p.1 = k ∨ p ∈ d := by
  unfold dictInsert at h
  by_cases hc : d.any (fun q => q.1 == k)
  · simp [hc] at h
    obtain ⟨a, b, hmem, hqe⟩ := h
    by_cases hk : a = k
    · rw [if_pos hk] at hqe
      left
      rw [← hqe]
    · rw [if_neg hk] at hqe
      right
      rw [← hqe]
      exact hmem
  · simp [hc] at h
    rcases h with h | h
    · right; exact h
    · left; simp [h]

/-- Setting an allowed property preserves the key discipline. -/
theorem keysOk_setProp {it : Item} {k : String} {v : PropVal}
    (h : keysOk it) (hk : k ∈ allowedKeys) : keysOk (it.setProp k v) := by
  intro p hp
  rcases mem_dictInsert hp with h1 | h1
  · rw [h1]; exact hk
  · exact h p h1

/-- An item with no properties satisfies the key discipline. -/
theorem keysOk_of_props_nil {it : Item} (h : it.props = []) : keysOk it := by
  intro p hp
  rw [h] at hp
  cases hp

/-- Every item of the cache node loop keeps to the allowed keys. -/
theorem cacheNodeLoop_keysOk (env : Env) (app : TkNodeApp)
    (hbase : ∀ p b, (env.collect_file p b).props = []) (nodes : List HouNode) :
    ∀ it ∈ (cacheNodeLoop env app nodes).1, keysOk it := by
  induction nodes with
  | nil => simp [cacheNodeLoop]
  | cons n rest ih =>
    intro it hit
    by_cases hp : app.get_output_path n ∈ env.fs
    · simp [cacheNodeLoop, hp] at hit
      rcases hit with rfl | hit
      · cases hw : app.get_work_file_template with
        | none =>
          cases hpt : app.get_publish_file_template with
          | none =>
            simp only [hw, hpt]
            exact keysOk_of_props_nil (by simp [hbase])
          | some pt =>
            simp only [hw, hpt]
            exact keysOk_setProp (keysOk_of_props_nil (by simp [hbase]))
              (by decide)
        | some wt =>
          cases hpt : app.get_publish_file_template with
          | none =>
            simp only [hw, hpt]
            exact keysOk_setProp (keysOk_of_props_nil (by simp [hbase]))
              (by decide)
          | some pt =>
            simp only [hw, hpt]
            exact keysOk_setProp
              (keysOk_setProp (keysOk_of_props_nil (by simp [hbase])) (by decide))
              (by decide)
      · exact ih it hit
    · simp [cacheNodeLoop, hp] at hit
      exact ih it hit

/-- Every item of the usdrop node loop keeps to the allowed keys. -/
theorem usdropNodeLoop_keysOk (env : Env) (app : TkNodeApp)
    (hbase : ∀ p b, (env.collect_file p b).props = []) (nodes : List HouNode) :
    ∀ it ∈ (usdropNodeLoop env app nodes).1, keysOk it := by
  induction nodes with
  | nil => simp [usdropNodeLoop]
  | cons n rest ih =>
    intro it hit
    by_cases hp : app.get_output_path n ∈ env.fs
    · simp [usdropNodeLoop, hp] at hit
      rcases hit with rfl | hit
      · cases hw : app.get_work_file_template with
        | none =>
          cases hpt : app.get_publish_file_template with
          | none =>
            simp only [hw, hpt]
            exact keysOk_of_props_nil (by simp [hbase])
          | some pt =>
            simp only [hw, hpt]
            exact keysOk_setProp (keysOk_of_props_nil (by simp [hbase]))
              (by decide)
        | some wt =>
          cases hpt : app.get_publish_file_template with
          | none =>
            simp only [hw, hpt]
            exact keysOk_setProp (keysOk_of_props_nil (by simp [hbase]))
              (by decide)
          | some pt =>
            simp only [hw, hpt]
            exact keysOk_setProp
              (keysOk_setProp (keysOk_of_props_nil (by simp [hbase])) (by decide))
              (by decide)
      · exact ih it hit
    · simp [usdropNodeLoop, hp] at hit
      exact ih it hit

/-- Every item of the alembic node loop keeps to the allowed keys. -/
theorem alembicNodeLoop_keysOk (env : Env) (app : TkNodeApp)
    (hbase : ∀ p b, (env.collect_file p b).props = []) (nodes : List HouNode) :
    ∀ it ∈ (alembicNodeLoop env app nodes).1, keysOk it := by
  induction nodes with
  | nil => simp [alembicNodeLoop]
  | cons n rest ih =>
    intro it hit
    by_cases hp : app.get_output_path n ∈ env.fs
    · simp [alembicNodeLoop, hp] at hit
      rcases hit with rfl | hit
      · cases hw : app.get_work_file_template with
        | none =>
          simp only [hw]
          exact keysOk_of_props_nil (by simp [hbase])
        | some wt =>
          simp only [hw]
          exact keysOk_setProp (keysOk_of_props_nil (by simp [hbase]))
            (by decide)
      · exact ih it hit
    · simp [alembicNodeLoop, hp] at hit
      exact ih it hit

/-- Every item of the fbx node loop keeps to the allowed keys. -/
theorem fbxNodeLoop_keysOk (env : Env) (app : TkNodeApp)
    (hbase : ∀ p b, (env.collect_file p b).props = []) (nodes : List HouNode) :
    ∀ it ∈ (fbxNodeLoop env app nodes).1, keysOk it := by
  induction nodes with
  | nil => simp [fbxNodeLoop]
  | cons n rest ih =>
    intro it hit
    by_cases hp : app.get_output_path n ∈ env.fs
    · simp [fbxNodeLoop, hp] at hit
      rcases hit with rfl | hit
      · cases hw : app.get_work_file_template with
        | none =>
          simp only [hw]
          exact keysOk_of_props_nil (by simp [hbase])
        | some wt =>
          simp only [hw]
          exact keysOk_setProp (keysOk_of_props_nil (by simp [hbase]))
            (by decide)
      · exact ih it hit
    · simp [fbxNodeLoop, hp] at hit
      exact ih it hit

/-- Every item of the mantra node loop keeps to the allowed keys. -/
theorem mantraNodeLoop_keysOk (env : Env) (app : TkNodeApp)
    (hbase : ∀ p b, (env.collect_file p b).props = []) (nodes : List HouNode) :
    ∀ it ∈ (mantraNodeLoop env app nodes).1, keysOk it := by
  induction nodes with
  | nil => simp [mantraNodeLoop]
  | cons n rest ih =>
    intro it hit
    by_cases hp : app.get_output_path n ∈ env.fs
    · simp [mantraNodeLoop, hp] at hit
      rcases hit with rfl | hit
      · cases hw : app.get_work_file_template with
        | none =>
          simp only [hw]
          exact keysOk_of_props_nil (by simp [hbase])
        | some wt =>
          simp only [hw]
          exact keysOk_setProp (keysOk_of_props_nil (by simp [hbase]))
            (by decide)
      · exact ih it hit
    · simp [mantraNodeLoop, hp] at hit
      exact ih it hit

/-- Every item of the generic output node loop keeps to the allowed
keys: it carries no properties at all. -/
theorem nodeOutputsNodeLoop_keysOk (env : Env) (node_type path_parm_name : String)
    (hbase : ∀ p b, (env.collect_file p b).props = []) (nodes : List HouNode) :
    ∀ it ∈ (nodeOutputsNodeLoop env node_type path_parm_name nodes).1, keysOk it := by
  induction nodes with
  | nil => simp [nodeOutputsNodeLoop]
  | cons n rest ih =>
    intro it hit
    cases hparm : n.parm path_parm_name with
    | none => simp [nodeOutputsNodeLoop, hparm] at hit
    | some path =>
      by_cases hp : path ∈ env.fs
      · simp [nodeOutputsNodeLoop, hparm, hp] at hit
        rcases hit with rfl | hit
        · exact keysOk_of_props_nil (by simp [hbase])
        · exact ih it hit
      · simp [nodeOutputsNodeLoop, hparm, hp] at hit
        exact ih it hit

/-- Every item of the output-table iteration keeps to the allowed
keys. -/
theorem nodeOutputsTypes_keysOk (env : Env) (aC fC mC : Bool)
    (hbase : ∀ p b, (env.collect_file p b).props = [])
    (ts : List (String × String)) :
    ∀ it ∈ (nodeOutputsTypes env aC fC mC ts).1, keysOk it := by
  induction ts with
  | nil => simp [nodeOutputsTypes]
  | cons t rest ih =>
    intro it hit
    have hstep : ∀ it ∈ (nodeOutputsTypeStep env aC fC mC t.1 t.2).1, keysOk it := by
      intro it2 hit2
      unfold nodeOutputsTypeStep at hit2
      by_cases h1 : t.1 == "alembic" && aC
      · simp [h1] at hit2
      · by_cases h2 : t.1 == "fbx" && fC
        · simp [h1, h2] at hit2
        · by_cases h3 : t.1 == "ifd" && mC
          · simp [h1, h2, h3] at hit2
          · cases hnt : env.houNodeType t.1 with
            | none => simp [h1, h2, h3, hnt] at hit2
            | some ns =>
              simp only [h1, h2, h3, hnt] at hit2
              simp at hit2
              exact nodeOutputsNodeLoop_keysOk env t.1 t.2 hbase ns it2 hit2
    simp only [nodeOutputsTypes] at hit
    cases hexc : (nodeOutputsTypeStep env aC fC mC t.1 t.2).2.2 with
    | some e =>
      simp [hexc] at hit
      exact hstep it hit
    | none =>
      simp [hexc] at hit
      rcases hit with hit | hit
      · exact hstep it hit
      · exact ih it hit

/-- Every item of the arnold aov loop keeps to the allowed keys. -/
theorem arnoldAovLoop_keysOk (env : Env) (work_template : Option String)
    (hbase : ∀ p b, (env.collect_file p b).props = [])
    (aovs : List (String × String)) :
    ∀ it ∈ (arnoldAovLoop env work_template aovs).1, keysOk it := by
  induction aovs with
  | nil => simp [arnoldAovLoop]
  | cons aov rest ih =>
    intro it hit
    by_cases hp : aov.2 ∈ env.fs
    · simp [arnoldAovLoop, hp] at hit
      rcases hit with rfl | hit
      · cases hw : work_template with
        | none =>
          simp only [hw]
          exact keysOk_of_props_nil (by simp [hbase])
        | some wt =>
          simp only [hw]
          exact keysOk_setProp (keysOk_of_props_nil (by simp [hbase]))
            (by decide)
      · exact ih it hit
    · simp [arnoldAovLoop, hp] at hit
      exact ih it hit

/-- Every item of the arnold node loop keeps to the allowed keys. -/
theorem arnoldNodeLoop_keysOk (env : Env) (app : ArnoldApp) (ff lf : Int)
    (hbase : ∀ p b, (env.collect_file p b).props = []) (nodes : List HouNode) :
    ∀ it ∈ (arnoldNodeLoop env app ff lf nodes).1, keysOk it := by
  induction nodes with
  | nil => simp [arnoldNodeLoop]
  | cons n rest ih =>
    intro it hit
    by_cases hp : app.handler_getOutputPath n ∈ env.fs
    · have hbeauty : keysOk ((((({ (env.collect_file (app.handler_getOutputPath n) true) with
          name := "Beauty Render (" ++ n.nodePath ++ ")" }.setProp
          "work_template" (PropVal.tmpl app.get_work_file_template)).setProp
          "publish_template" (PropVal.tmpl app.get_publish_file_template)).setProp
          "first_frame" (PropVal.int ff)).setProp
          "last_frame" (PropVal.int lf))) :=
        keysOk_setProp (keysOk_setProp (keysOk_setProp (keysOk_setProp
          (keysOk_of_props_nil (by simp [hbase])) (by decide)) (by decide))
          (by decide)) (by decide)
      cases hd : arnoldAovDict n (app.handler_getDifferentFileAOVs n) [] with
      | error e =>
        simp [arnoldNodeLoop, hp, hd] at hit
        subst hit
        exact hbeauty
      | ok aovs =>
        simp [arnoldNodeLoop, hp, hd] at hit
        rcases hit with rfl | hit | hit
        · exact hbeauty
        · exact arnoldAovLoop_keysOk env app.get_work_file_template hbase aovs it hit
        · exact ih it hit
    · simp [arnoldNodeLoop, hp] at hit
      exact ih it hit

/-- The full property list carried by every item the renderman path
loop creates: both templates, both frame bounds, the ACES colorspace
tag and a publish name derived from the item's output path. -/
theorem rendermanPathLoop_item_props (env : Env) (app : RenderApp) (n : HouNode)
    (ff lf : Int) (hbase : ∀ p b, (env.collect_file p b).props = [])
    (paths : List String) :
    ∀ it ∈ (rendermanPathLoop env app n ff lf paths).1, ∃ p,
      it.props =
        [("work_template", PropVal.tmpl app.get_work_template),
         ("publish_template", PropVal.tmpl (some (app.get_render_template).tname)),
         ("first_frame", PropVal.int ff),
         ("last_frame", PropVal.int lf),
         ("colorspace", PropVal.str "ACES - ACEScg"),
         ("publish_name", PropVal.str (env.util_publish_name p))] := by
  induction paths with
  | nil => simp [rendermanPathLoop]
  | cons p rest ih =>
    intro it hit
    by_cases hx : pyEndsWith p ".xml"
    · simp only [rendermanPathLoop, hx, if_pos] at hit
      exact ih it (by simpa [hx] using hit)
    · by_cases hfs : pyReplace p "$F4" (fmt04 ff) ∈ env.fs
      · by_cases hpub : app.get_published_status n = true
        · simp [rendermanPathLoop, hx, hfs, hpub] at hit
          exact ih it hit
        · simp [rendermanPathLoop, hx, hfs, hpub] at hit
          rcases hit with rfl | hit
          · refine ⟨p, ?_⟩
            simp [Item.setProp, dictInsert, hbase]
          · exact ih it hit
      · simp [rendermanPathLoop, hx, hfs] at hit
        exact ih it hit

/-- The full property list carried by every item the karma path loop
creates. -/
theorem karmaPathLoop_item_props (env : Env) (app : RenderApp) (n : HouNode)
    (ff lf : Int) (hbase : ∀ p b, (env.collect_file p b).props = [])
    (paths : List String) :
    ∀ it ∈ (karmaPathLoop env app n ff lf paths).1, ∃ p,
      it.props =
        [("work_template", PropVal.tmpl app.get_work_template),
         ("publish_template", PropVal.tmpl (some (app.get_render_template).tname)),
         ("first_frame", PropVal.int ff),
         ("last_frame", PropVal.int lf),
         ("colorspace", PropVal.str "ACES - ACEScg"),
         ("publish_name", PropVal.str (env.util_publish_name p))] := by
  induction paths with
  | nil => simp [karmaPathLoop]
  | cons p rest ih =>
    intro it hit
    by_cases hx : pyEndsWith p ".xml"
    · simp only [karmaPathLoop, hx, if_pos] at hit
      exact ih it (by simpa [hx] using hit)
    · by_cases hfs : pyReplace p "$F4" (fmt04 ff) ∈ env.fs
      · by_cases hpub : app.get_published_status n = true
        · simp [karmaPathLoop, hx, hfs, hpub] at hit
          exact ih it hit
        · simp [karmaPathLoop, hx, hfs, hpub] at hit
          rcases hit with rfl | hit
          · refine ⟨p, ?_⟩
            simp [Item.setProp, dictInsert, hbase]
          · exact ih it hit
      · simp [karmaPathLoop, hx, hfs] at hit
        exact ih it hit

/-- Node-loop lift of the renderman property-list description. -/
theorem rendermanNodeLoop_item_props (env : Env) (app : RenderApp)
    (hbase : ∀ p b, (env.collect_file p b).props = []) (nodes : List HouNode) :
    ∀ it ∈ (rendermanNodeLoop env app nodes).1, ∃ n ff lf p, (ff, lf) = app.get_output_range n ∧
      it.props =
        [("work_template", PropVal.tmpl app.get_work_template),
         ("publish_template", PropVal.tmpl (some (app.get_render_template).tname)),
         ("first_frame", PropVal.int ff),
         ("last_frame", PropVal.int lf),
         ("colorspace", PropVal.str "ACES - ACEScg"),
         ("publish_name", PropVal.str (env.util_publish_name p))] := by
  induction nodes with
  | nil => simp [rendermanNodeLoop]
  | cons n rest ih =>
    intro it hit
    cases hq : app.get_output_paths n with
    | error e =>
      simp [rendermanNodeLoop, hq] at hit
      exact ih it hit
    | ok paths =>
      simp [rendermanNodeLoop, hq] at hit
      rcases hit with hit | hit
      · obtain ⟨p, hp⟩ := rendermanPathLoop_item_props env app n
          (app.get_output_range n).1 (app.get_output_range n).2 hbase paths it hit
        exact ⟨n, (app.get_output_range n).1, (app.get_output_range n).2, p,
               by simp, hp⟩
      · exact ih it hit

/-- Node-loop lift of the karma property-list description. -/
theorem karmaNodeLoop_item_props (env : Env) (app : RenderApp)
    (hbase : ∀ p b, (env.collect_file p b).props = []) (nodes : List HouNode) :
    ∀ it ∈ (karmaNodeLoop env app nodes).1, ∃ n ff lf p, (ff, lf) = app.get_output_range n ∧
      it.props =
        [("work_template", PropVal.tmpl app.get_work_template),
         ("publish_template", PropVal.tmpl (some (app.get_render_template).tname)),
         ("first_frame", PropVal.int ff),
         ("last_frame", PropVal.int lf),
         ("colorspace", PropVal.str "ACES - ACEScg"),
         ("publish_name", PropVal.str (env.util_publish_name p))] := by
  induction nodes with
  | nil => simp [karmaNodeLoop]
  | cons n rest ih =>
    intro it hit
    cases hq : app.get_output_paths n with
    | error e =>
      simp [karmaNodeLoop, hq] at hit
      exact ih it hit
    | ok paths =>
      simp [karmaNodeLoop, hq] at hit
      rcases hit with hit | hit
      · obtain ⟨p, hp⟩ := karmaPathLoop_item_props env app n
          (app.get_output_range n).1 (app.get_output_range n).2 hbase paths it hit
        exact ⟨n, (app.get_output_range n).1, (app.get_output_range n).2, p,
               by simp, hp⟩
      · exact ih it hit

/-- An item carrying exactly the six renderman or karma properties
keeps to the allowed keys. -/
theorem keysOk_of_six {it : Item} {w pt : Option String} {ff lf : Int}
    {pn : String}
    (h : it.props =
      [("work_template", PropVal.tmpl w),
       ("publish_template", PropVal.tmpl pt),
       ("first_frame", PropVal.int ff),
       ("last_frame", PropVal.int lf),
       ("colorspace", PropVal.str "ACES - ACEScg"),
       ("publish_name", PropVal.str pn)]) : keysOk it := by
  intro q hq
  rw [h] at hq
  simp at hq
  rcases hq with h1 | h1 | h1 | h1 | h1 | h1 <;> simp [h1, allowedKeys]

/-- Routine-level key discipline for the cache collector. -/
theorem collect_tk_cachenodes_keysOk (env : Env)
    (hbase : ∀ p b, (env.collect_file p b).props = []) :
    ∀ it ∈ (collect_tk_cachenodes env).items, keysOk it := by
  unfold collect_tk_cachenodes
  cases env.cachenodeApp with
  | none => simp
  | some app =>
    cases hq : app.get_nodes with
    | error e => cases e <;> simp [hq]
    | ok nodes =>
      intro it hit
      simp [hq] at hit
      exact cacheNodeLoop_keysOk env app hbase nodes it hit

/-- Routine-level key discipline for the usdrop collector. -/
theorem collect_tk_usdropnodes_keysOk (env : Env)
    (hbase : ∀ p b, (env.collect_file p b).props = []) :
    ∀ it ∈ (collect_tk_usdropnodes env).items, keysOk it := by
  unfold collect_tk_usdropnodes
  cases env.usdropApp with
  | none => simp
  | some app =>
    cases hq : app.get_nodes with
    | error e => simp [hq]
    | ok nodes =>
      intro it hit
      simp [hq] at hit
      exact usdropNodeLoop_keysOk env app hbase nodes it hit

/-- Routine-level key discipline for the alembic collector. -/
theorem collect_tk_alembicnodes_keysOk (env : Env)
    (hbase : ∀ p b, (env.collect_file p b).props = []) :
    ∀ it ∈ (collect_tk_alembicnodes env).items, keysOk it := by
  unfold collect_tk_alembicnodes
  cases env.alembicApp with
  | none => simp
  | some app =>
    cases hq : app.get_nodes with
    | error e => cases e <;> simp [hq]
    | ok nodes =>
      intro it hit
      simp [hq] at hit
      exact alembicNodeLoop_keysOk env app hbase nodes it hit

/-- Routine-level key discipline for the fbx collector. -/
theorem collect_tk_fbxnodes_keysOk (env : Env)
    (hbase : ∀ p b, (env.collect_file p b).props = []) :
    ∀ it ∈ (collect_tk_fbxnodes env).items, keysOk it := by
  unfold collect_tk_fbxnodes
  cases env.fbxApp with
  | none => simp
  | some app =>
    cases hq : app.get_nodes with
    | error e => cases e <;> simp [hq]
    | ok nodes =>
      intro it hit
      simp [hq] at hit
      exact fbxNodeLoop_keysOk env app hbase nodes it hit

/-- Routine-level key discipline for the mantra collector. -/
theorem collect_tk_mantranodes_keysOk (env : Env)
    (hbase : ∀ p b, (env.collect_file p b).props = []) :
    ∀ it ∈ (collect_tk_mantranodes env).items, keysOk it := by
  unfold collect_tk_mantranodes
  cases env.mantraApp with
  | none => simp
  | some app =>
    cases hq : app.get_nodes with
    | error e => cases e <;> simp [hq]
    | ok nodes =>
      intro it hit
      simp [hq] at hit
      exact mantraNodeLoop_keysOk env app hbase nodes it hit

/-- Routine-level key discipline for the arnold collector. -/
theorem collect_tk_arnoldnodes_keysOk (env : Env)
    (hbase : ∀ p b, (env.collect_file p b).props = []) :
    ∀ it ∈ (collect_tk_arnoldnodes env).items, keysOk it := by
  unfold collect_tk_arnoldnodes
  cases env.arnoldApp with
  | none => simp
  | some app =>
    by_cases hh : pyTruthy (env.getenv "HTOA")
    · cases hq : app.handler_getNodes with
      | error e => simp [hh, hq]
      | ok nodes =>
        intro it hit
        simp [hh, hq] at hit
        exact arnoldNodeLoop_keysOk env app env.playbackRange.1
          env.playbackRange.2 hbase nodes it hit
    · simp [hh]

/-- Routine-level property-list description for the renderman
collector. -/
theorem collect_tk_rendermannodes_item_props (env : Env)
    (hbase : ∀ p b, (env.collect_file p b).props = []) :
    ∀ it ∈ (collect_tk_rendermannodes env).items, ∃ w pt ff lf p,
      it.props =
        [("work_template", PropVal.tmpl w),
         ("publish_template", PropVal.tmpl pt),
         ("first_frame", PropVal.int ff),
         ("last_frame", PropVal.int lf),
         ("colorspace", PropVal.str "ACES - ACEScg"),
         ("publish_name", PropVal.str (env.util_publish_name p))] := by
  unfold collect_tk_rendermannodes
  cases env.rendermanApp with
  | none => simp
  | some app =>
    by_cases hr : pyTruthy (env.getenv "RMANTREE")
    · cases hq : app.get_all_nodes with
      | error e => simp [hr, hq]
      | ok nodes =>
        intro it hit
        simp [hr, hq] at hit
        obtain ⟨n, ff, lf, p, _, hp⟩ :=
          rendermanNodeLoop_item_props env app hbase nodes it hit
        exact ⟨app.get_work_template, some (app.get_render_template).tname,
               ff, lf, p, hp⟩
    · simp [hr]

/-- Routine-level property-list description for the karma collector. -/
theorem collect_tk_karmanodes_item_props (env : Env)
    (hbase : ∀ p b, (env.collect_file p b).props = []) :
    ∀ it ∈ (collect_tk_karmanodes env).items, ∃ w pt ff lf p,
      it.props =
        [("work_template", PropVal.tmpl w),
         ("publish_template", PropVal.tmpl pt),
         ("first_frame", PropVal.int ff),
         ("last_frame", PropVal.int lf),
         ("colorspace", PropVal.str "ACES - ACEScg"),
         ("publish_name", PropVal.str (env.util_publish_name p))] := by
  unfold collect_tk_karmanodes
  cases env.karmaApp with
  | none => simp
  | some app =>
    cases hq : app.get_all_nodes with
    | error e => simp [hq]
    | ok nodes =>
      intro it hit
      simp [hq] at hit
      obtain ⟨n, ff, lf, p, _, hp⟩ :=
        karmaNodeLoop_item_props env app hbase nodes it hit
      exact ⟨app.get_work_template, some (app.get_render_template).tname,
             ff, lf, p, hp⟩

/-- Routine-level key discipline for the renderman collector. -/
theorem collect_tk_rendermannodes_keysOk (env : Env)
    (hbase : ∀ p b, (env.collect_file p b).props = []) :
    ∀ it ∈ (collect_tk_rendermannodes env).items, keysOk it := by
  intro it hit
  obtain ⟨w, pt, ff, lf, p, hp⟩ :=
    collect_tk_rendermannodes_item_props env hbase it hit
  exact keysOk_of_six hp

/-- Routine-level key discipline for the karma collector. -/
theorem collect_tk_karmanodes_keysOk (env : Env)
    (hbase : ∀ p b, (env.collect_file p b).props = []) :
    ∀ it ∈ (collect_tk_karmanodes env).items, keysOk it := by
  intro it hit
  obtain ⟨w, pt, ff, lf, p, hp⟩ :=
    collect_tk_karmanodes_item_props env hbase it hit
  exact keysOk_of_six hp

/-- Routine-level key discipline for the generic output collector. -/
theorem collect_node_outputs_keysOk (env : Env) (aC fC mC : Bool)
    (hbase : ∀ p b, (env.collect_file p b).props = []) :
    ∀ it ∈ (collect_node_outputs env aC fC mC).items, keysOk it := by
  intro it hit
  simp only [collect_node_outputs] at hit
  exact nodeOutputsTypes_keysOk env aC fC mC hbase houdiniOutputs it hit

/-- The session item carries at most the work template property. -/
theorem session_item_keysOk (env : Env) (settings : Option String) :
    keysOk (collect_current_houdini_session env settings).1 := by
  cases settings with
  | none => exact keysOk_of_props_nil rfl
  | some v => exact keysOk_setProp (keysOk_of_props_nil rfl) (by decide)

/-- An item of a sequenced session prefix comes either from the prefix
or from the routine just run. -/
theorem mem_stepRun_items {prev : SessionOut} {r : ROut} {it : Item}
    (h : it ∈ (stepRun prev r).items) : it ∈ prev.items ∨ it ∈ r.items := by
  unfold stepRun at h
  cases hexc : prev.exc with
  | some e => rw [hexc] at h; exact Or.inl h
  | none =>
    rw [hexc] at h
    simp at h
    exact h

/-- C7: under the base-class contract that fresh items start with no
properties, every item a whole session collection creates carries only
string-keyed metadata drawn from the specified set (work and publish
templates, frame bounds, colorspace, publish name), and every renderman
and karma item carries all six, with colorspace ACES - ACEScg and a
publish name derived from its output path. -/
theorem C7_item_metadata_keys (env : Env) (settings : Option String)
    (hbase : ∀ p b, (env.collect_file p b).props = []) :
    (∀ it ∈ (process_current_session env settings).items, keysOk it) ∧
    (∀ it ∈ (collect_tk_rendermannodes env).items, ∃ w pt ff lf p,
       it.props =
         [("work_template", PropVal.tmpl w),
          ("publish_template", PropVal.tmpl pt),
          ("first_frame", PropVal.int ff),
          ("last_frame", PropVal.int lf),
          ("colorspace", PropVal.str "ACES - ACEScg"),
          ("publish_name", PropVal.str (env.util_publish_name p))]) ∧
    (∀ it ∈ (collect_tk_karmanodes env).items, ∃ w pt ff lf p,
       it.props =
         [("work_template", PropVal.tmpl w),
          ("publish_template", PropVal.tmpl pt),
          ("first_frame", PropVal.int ff),
          ("last_frame", PropVal.int lf),
          ("colorspace", PropVal.str "ACES - ACEScg"),
          ("publish_name", PropVal.str (env.util_publish_name p))]) := by
  refine ⟨?_, collect_tk_rendermannodes_item_props env hbase,
          collect_tk_karmanodes_item_props env hbase⟩
  intro it hit
  simp only [process_current_session] at hit
  rcases mem_stepRun_items hit with hit | hit
  swap
  · exact collect_node_outputs_keysOk env _ _ _ hbase it hit
  rcases mem_stepRun_items hit with hit | hit
  swap
  · exact collect_tk_usdropnodes_keysOk env hbase it hit
  rcases mem_stepRun_items hit with hit | hit
  swap
  · exact collect_tk_cachenodes_keysOk env hbase it hit
  rcases mem_stepRun_items hit with hit | hit
  swap
  · exact collect_tk_karmanodes_keysOk env hbase it hit
  rcases mem_stepRun_items hit with hit | hit
  swap
  · exact collect_tk_rendermannodes_keysOk env hbase it hit
  rcases mem_stepRun_items hit with hit | hit
  swap
  · exact collect_tk_arnoldnodes_keysOk env hbase it hit
  rcases mem_stepRun_items hit with hit | hit
  swap
  · exact collect_tk_mantranodes_keysOk env hbase it hit
  rcases mem_stepRun_items hit with hit | hit
  swap
  · exact collect_tk_fbxnodes_keysOk env hbase it hit
  rcases mem_stepRun_items hit with hit | hit
  swap
  · exact collect_tk_alembicnodes_keysOk env hbase it hit
  simp at hit
  rw [hit]
  exact session_item_keysOk env settings

/-- Witness for C7 at the live karma environment, whose base collector
returns items with no properties. -/
theorem C7_item_metadata_keys_witness :
    (∀ it ∈ (process_current_session envKarmaLive none).items, keysOk it) ∧
    (∀ it ∈ (collect_tk_karmanodes envKarmaLive).items, ∃ w pt ff lf p,
       it.props =
         [("work_template", PropVal.tmpl w),
          ("publish_template", PropVal.tmpl pt),
          ("first_frame", PropVal.int ff),
          ("last_frame", PropVal.int lf),
          ("colorspace", PropVal.str "ACES - ACEScg"),
          ("publish_name", PropVal.str (envKarmaLive.util_publish_name p))]) :=
  ⟨(C7_item_metadata_keys envKarmaLive none (fun _ _ => rfl)).1,
   (C7_item_metadata_keys envKarmaLive none (fun _ _ => rfl)).2.2⟩

/-- No string extended with the sequence suffix equals the session item
type. -/
theorem append_sequence_ne_session (s : String) :
    s ++ ".sequence" ≠ "houdini.session" := by
  cases s with
  | mk l =>
    intro h
    have hd : l ++ ".sequence".data = "houdini.session".data :=
      congrArg String.data h
    have hlen : l.length = 6 := by
      have := congrArg List.length hd
      simp at this
      omega
    have hsplit : l ++ ".sequence".data =
        ("houdini.session".data.take 6) ++ ("houdini.session".data.drop 6) := by
      rw [List.take_append_drop]
      exact hd
    have h2 : ".sequence".data = "houdini.session".data.drop 6 :=
      List.append_inj_right hsplit (by simp [hlen])
    exact absurd h2 (by decide)

/-- Cache items never carry the session item type. -/
theorem cacheNodeLoop_types (env : Env) (app : TkNodeApp)
    (hcf : ∀ p b, (env.collect_file p b).itemType ≠ "houdini.session")
    (nodes : List HouNode) :
    ∀ it ∈ (cacheNodeLoop env app nodes).1, it.itemType ≠ "houdini.session" := by
  induction nodes with
  | nil => simp [cacheNodeLoop]
  | cons n rest ih =>
    intro it hit
    by_cases hp : app.get_output_path n ∈ env.fs
    · simp [cacheNodeLoop, hp] at hit
      rcases hit with rfl | hit
      · cases app.get_work_file_template <;>
          cases app.get_publish_file_template <;>
          simp [Item.setProp, hcf]
      · exact ih it hit
    · simp [cacheNodeLoop, hp] at hit
      exact ih it hit

/-- Usdrop items never carry the session item type. -/
theorem usdropNodeLoop_types (env : Env) (app : TkNodeApp)
    (hcf : ∀ p b, (env.collect_file p b).itemType ≠ "houdini.session")
    (nodes : List HouNode) :
    ∀ it ∈ (usdropNodeLoop env app nodes).1, it.itemType ≠ "houdini.session" := by
  induction nodes with
  | nil => simp [usdropNodeLoop]
  | cons n rest ih =>
    intro it hit
    by_cases hp : app.get_output_path n ∈ env.fs
    · simp [usdropNodeLoop, hp] at hit
      rcases hit with rfl | hit
      · cases app.get_work_file_template <;>
          cases app.get_publish_file_template <;>
          simp [Item.setProp, hcf]
      · exact ih it hit
    · simp [usdropNodeLoop, hp] at hit
      exact ih it hit

/-- Alembic items never carry the session item type. -/
theorem alembicNodeLoop_types (env : Env) (app : TkNodeApp)
    (hcf : ∀ p b, (env.collect_file p b).itemType ≠ "houdini.session")
    (nodes : List HouNode) :
    ∀ it ∈ (alembicNodeLoop env app nodes).1, it.itemType ≠ "houdini.session" := by
  induction nodes with
  | nil => simp [alembicNodeLoop]
  | cons n rest ih =>
    intro it hit
    by_cases hp : app.get_output_path n ∈ env.fs
    · simp [alembicNodeLoop, hp] at hit
      rcases hit with rfl | hit
      · cases app.get_work_file_template <;> simp [Item.setProp, hcf]
      · exact ih it hit
    · simp [alembicNodeLoop, hp] at hit
      exact ih it hit

/-- Fbx items never carry the session item type. -/
theorem fbxNodeLoop_types (env : Env) (app : TkNodeApp)
    (hcf : ∀ p b, (env.collect_file p b).itemType ≠ "houdini.session")
    (nodes : List HouNode) :
    ∀ it ∈ (fbxNodeLoop env app nodes).1, it.itemType ≠ "houdini.session" := by
  induction nodes with
  | nil => simp [fbxNodeLoop]
  | cons n rest ih =>
    intro it hit
    by_cases hp : app.get_output_path n ∈ env.fs
    · simp [fbxNodeLoop, hp] at hit
      rcases hit with rfl | hit
      · cases app.get_work_file_template <;> simp [Item.setProp, hcf]
      · exact ih it hit
    · simp [fbxNodeLoop, hp] at hit
      exact ih it hit

/-- Mantra items never carry the session item type. -/
theorem mantraNodeLoop_types (env : Env) (app : TkNodeApp)
    (hcf : ∀ p b, (env.collect_file p b).itemType ≠ "houdini.session")
    (nodes : List HouNode) :
    ∀ it ∈ (mantraNodeLoop env app nodes).1, it.itemType ≠ "houdini.session" := by
  induction nodes with
  | nil => simp [mantraNodeLoop]
  | cons n rest ih =>
    intro it hit
    by_cases hp : app.get_output_path n ∈ env.fs
    · simp [mantraNodeLoop, hp] at hit
      rcases hit with rfl | hit
      · cases app.get_work_file_template <;> simp [Item.setProp, hcf]
      · exact ih it hit
    · simp [mantraNodeLoop, hp] at hit
      exact ih it hit

/-- Arnold aov items never carry the session item type. -/
theorem arnoldAovLoop_types (env : Env) (work_template : Option String)
    (hcf : ∀ p b, (env.collect_file p b).itemType ≠ "houdini.session")
    (aovs : List (String × String)) :
    ∀ it ∈ (arnoldAovLoop env work_template aovs).1,
      it.itemType ≠ "houdini.session" := by
  induction aovs with
  | nil => simp [arnoldAovLoop]
  | cons aov rest ih =>
    intro it hit
    by_cases hp : aov.2 ∈ env.fs
    · simp [arnoldAovLoop, hp] at hit
      rcases hit with rfl | hit
      · cases work_template <;> simp [Item.setProp, hcf]
      · exact ih it hit
    · simp [arnoldAovLoop, hp] at hit
      exact ih it hit

/-- Arnold items never carry the session item type. -/
theorem arnoldNodeLoop_types (env : Env) (app : ArnoldApp) (ff lf : Int)
    (hcf : ∀ p b, (env.collect_file p b).itemType ≠ "houdini.session")
    (nodes : List HouNode) :
    ∀ it ∈ (arnoldNodeLoop env app ff lf nodes).1,
      it.itemType ≠ "houdini.session" := by
  induction nodes with
  | nil => simp [arnoldNodeLoop]
  | cons n rest ih =>
    intro it hit
    by_cases hp : app.handler_getOutputPath n ∈ env.fs
    · cases hd : arnoldAovDict n (app.handler_getDifferentFileAOVs n) [] with
      | error e =>
        simp [arnoldNodeLoop, hp, hd] at hit
        subst hit
        simp [Item.setProp, hcf]
      | ok aovs =>
        simp [arnoldNodeLoop, hp, hd] at hit
        rcases hit with rfl | hit | hit
        · simp [Item.setProp, hcf]
        · exact arnoldAovLoop_types env app.get_work_file_template hcf aovs it hit
        · exact ih it hit
    · simp [arnoldNodeLoop, hp] at hit
      exact ih it hit

/-- Renderman items never carry the session item type: their type ends
in the sequence suffix. -/
theorem rendermanPathLoop_types (env : Env) (app : RenderApp) (n : HouNode)
    (ff lf : Int) (paths : List String) :
    ∀ it ∈ (rendermanPathLoop env app n ff lf paths).1,
      it.itemType ≠ "houdini.session" := by
  induction paths with
  | nil => simp [rendermanPathLoop]
  | cons p rest ih =>
    intro it hit
    by_cases hx : pyEndsWith p ".xml"
    · simp only [rendermanPathLoop, hx, if_pos] at hit
      exact ih it (by simpa [hx] using hit)
    · by_cases hfs : pyReplace p "$F4" (fmt04 ff) ∈ env.fs
      · by_cases hpub : app.get_published_status n = true
        · simp [rendermanPathLoop, hx, hfs, hpub] at hit
          exact ih it hit
        · simp [rendermanPathLoop, hx, hfs, hpub] at hit
          rcases hit with rfl | hit
          · simp [Item.setProp]
            exact append_sequence_ne_session _
          · exact ih it hit
      · simp [rendermanPathLoop, hx, hfs] at hit
        exact ih it hit

/-- Karma items never carry the session item type. -/
theorem karmaPathLoop_types (env : Env) (app : RenderApp) (n : HouNode)
    (ff lf : Int) (paths : List String) :
    ∀ it ∈ (karmaPathLoop env app n ff lf paths).1,
      it.itemType ≠ "houdini.session" := by
  induction paths with
  | nil => simp [karmaPathLoop]
  | cons p rest ih =>
    intro it hit
    by_cases hx : pyEndsWith p ".xml"
    · simp only [karmaPathLoop, hx, if_pos] at hit
      exact ih it (by simpa [hx] using hit)
    · by_cases hfs : pyReplace p "$F4" (fmt04 ff) ∈ env.fs
      · by_cases hpub : app.get_published_status n = true
        · simp [karmaPathLoop, hx, hfs, hpub] at hit
          exact ih it hit
        · simp [karmaPathLoop, hx, hfs, hpub] at hit
          rcases hit with rfl | hit
          · simp [Item.setProp]
            exact append_sequence_ne_session _
          · exact ih it hit
      · simp [karmaPathLoop, hx, hfs] at hit
        exact ih it hit

/-- Renderman node-loop lift of the item-type discipline. -/
theorem rendermanNodeLoop_types (env : Env) (app : RenderApp)
    (nodes : List HouNode) :
    ∀ it ∈ (rendermanNodeLoop env app nodes).1,
      it.itemType ≠ "houdini.session" := by
  induction nodes with
  | nil => simp [rendermanNodeLoop]
  | cons n rest ih =>
    intro it hit
    cases hq : app.get_output_paths n with
    | error e =>
      simp [rendermanNodeLoop, hq] at hit
      exact ih it hit
    | ok paths =>
      simp [rendermanNodeLoop, hq] at hit
      rcases hit with hit | hit
      · exact rendermanPathLoop_types env app n _ _ paths it hit
      · exact ih it hit

/-- Karma node-loop lift of the item-type discipline. -/
theorem karmaNodeLoop_types (env : Env) (app : RenderApp)
    (nodes : List HouNode) :
    ∀ it ∈ (karmaNodeLoop env app nodes).1,
      it.itemType ≠ "houdini.session" := by
  induction nodes with
  | nil => simp [karmaNodeLoop]
  | cons n rest ih =>
    intro it hit
    cases hq : app.get_output_paths n with
    | error e =>
      simp [karmaNodeLoop, hq] at hit
      exact ih it hit
    | ok paths =>
      simp [karmaNodeLoop, hq] at hit
      rcases hit with hit | hit
      · exact karmaPathLoop_types env app n _ _ paths it hit
      · exact ih it hit

/-- Generic output items never carry the session item type. -/
theorem nodeOutputsNodeLoop_types (env : Env) (node_type path_parm_name : String)
    (hcf : ∀ p b, (env.collect_file p b).itemType ≠ "houdini.session")
    (nodes : List HouNode) :
    ∀ it ∈ (nodeOutputsNodeLoop env node_type path_parm_name nodes).1,
      it.itemType ≠ "houdini.session" := by
  induction nodes with
  | nil => simp [nodeOutputsNodeLoop]
  | cons n rest ih =>
    intro it hit
    cases hparm : n.parm path_parm_name with
    | none => simp [nodeOutputsNodeLoop, hparm] at hit
    | some path =>
      by_cases hp : path ∈ env.fs
      · simp [nodeOutputsNodeLoop, hparm, hp] at hit
        rcases hit with rfl | hit
        · simp [hcf]
        · exact ih it hit
      · simp [nodeOutputsNodeLoop, hparm, hp] at hit
        exact ih it hit

/-- Output-table lift of the item-type discipline. -/
theorem nodeOutputsTypes_types (env : Env) (aC fC mC : Bool)
    (hcf : ∀ p b, (env.collect_file p b).itemType ≠ "houdini.session")
    (ts : List (String × String)) :
    ∀ it ∈ (nodeOutputsTypes env aC fC mC ts).1,
      it.itemType ≠ "houdini.session" := by
  induction ts with
  | nil => simp [nodeOutputsTypes]
  | cons t rest ih =>
    intro it hit
    have hstep : ∀ it ∈ (nodeOutputsTypeStep env aC fC mC t.1 t.2).1,
        it.itemType ≠ "houdini.session" := by
      intro it2 hit2
      unfold nodeOutputsTypeStep at hit2
      by_cases h1 : t.1 == "alembic" && aC
      · simp [h1] at hit2
      · by_cases h2 : t.1 == "fbx" && fC
        · simp [h1, h2] at hit2
        · by_cases h3 : t.1 == "ifd" && mC
          · simp [h1, h2, h3] at hit2
          · cases hnt : env.houNodeType t.1 with
            | none => simp [h1, h2, h3, hnt] at hit2
            | some ns =>
              simp only [h1, h2, h3, hnt] at hit2
              simp at hit2
              exact nodeOutputsNodeLoop_types env t.1 t.2 hcf ns it2 hit2
    simp only [nodeOutputsTypes] at hit
    cases hexc : (nodeOutputsTypeStep env aC fC mC t.1 t.2).2.2 with
    | some e =>
      simp [hexc] at hit
      exact hstep it hit
    | none =>
      simp [hexc] at hit
      rcases hit with hit | hit
      · exact hstep it hit
      · exact ih it hit

/-- No item of any collection routine carries the session item type. -/
theorem routines_types (env : Env)
    (hcf : ∀ p b, (env.collect_file p b).itemType ≠ "houdini.session") :
    (∀ it ∈ (collect_tk_alembicnodes env).items, it.itemType ≠ "houdini.session") ∧
    (∀ it ∈ (collect_tk_fbxnodes env).items, it.itemType ≠ "houdini.session") ∧
    (∀ it ∈ (collect_tk_mantranodes env).items, it.itemType ≠ "houdini.session") ∧
    (∀ it ∈ (collect_tk_arnoldnodes env).items, it.itemType ≠ "houdini.session") ∧
    (∀ it ∈ (collect_tk_rendermannodes env).items, it.itemType ≠ "houdini.session") ∧
    (∀ it ∈ (collect_tk_karmanodes env).items, it.itemType ≠ "houdini.session") ∧
    (∀ it ∈ (collect_tk_cachenodes env).items, it.itemType ≠ "houdini.session") ∧
    (∀ it ∈ (collect_tk_usdropnodes env).items, it.itemType ≠ "houdini.session") ∧
    (∀ aC fC mC, ∀ it ∈ (collect_node_outputs env aC fC mC).items,
       it.itemType ≠ "houdini.session") := by
  refine ⟨?_, ?_, ?_, ?_, ?_, ?_, ?_, ?_, ?_⟩
  · unfold collect_tk_alembicnodes
    cases env.alembicApp with
    | none => simp
    | some app =>
      cases hq : app.get_nodes with
      | error e => cases e <;> simp [hq]
      | ok nodes =>
        intro it hit
        simp [hq] at hit
        exact alembicNodeLoop_types env app hcf nodes it hit
  · unfold collect_tk_fbxnodes
    cases env.fbxApp with
    | none => simp
    | some app =>
      cases hq : app.get_nodes with
      | error e => cases e <;> simp [hq]
      | ok nodes =>
        intro it hit
        simp [hq] at hit
        exact fbxNodeLoop_types env app hcf nodes it hit
  · unfold collect_tk_mantranodes
    cases env.mantraApp with
    | none => simp
    | some app =>
      cases hq : app.get_nodes with
      | error e => cases e <;> simp [hq]
      | ok nodes =>
        intro it hit
        simp [hq] at hit
        exact mantraNodeLoop_types env app hcf nodes it hit
  · unfold collect_tk_arnoldnodes
    cases env.arnoldApp with
    | none => simp
    | some app =>
      by_cases hh : pyTruthy (env.getenv "HTOA")
      · cases hq : app.handler_getNodes with
        | error e => simp [hh, hq]
        | ok nodes =>
          intro it hit
          simp [hh, hq] at hit
          exact arnoldNodeLoop_types env app env.playbackRange.1
            env.playbackRange.2 hcf nodes it hit
      · simp [hh]
  · unfold collect_tk_rendermannodes
    cases env.rendermanApp with
    | none => simp
    | some app =>
      by_cases hr : pyTruthy (env.getenv "RMANTREE")
      · cases hq : app.get_all_nodes with
        | error e => simp [hr, hq]
        | ok nodes =>
          intro it hit
          simp [hr, hq] at hit
          exact rendermanNodeLoop_types env app nodes it hit
      · simp [hr]
  · unfold collect_tk_karmanodes
    cases env.karmaApp with
    | none => simp
    | some app =>
      cases hq : app.get_all_nodes with
      | error e => simp [hq]
      | ok nodes =>
        intro it hit
        simp [hq] at hit
        exact karmaNodeLoop_types env app nodes it hit
  · unfold collect_tk_cachenodes
    cases env.cachenodeApp with
    | none => simp
    | some app =>
      cases hq : app.get_nodes with
      | error e => cases e <;> simp [hq]
      | ok nodes =>
        intro it hit
        simp [hq] at hit
        exact cacheNodeLoop_types env app hcf nodes it hit
  · unfold collect_tk_usdropnodes
    cases env.usdropApp with
    | none => simp
    | some app =>
      cases hq : app.get_nodes with
      | error e => simp [hq]
      | ok nodes =>
        intro it hit
        simp [hq] at hit
        exact usdropNodeLoop_types env app hcf nodes it hit
  · intro aC fC mC it hit
    simp only [collect_node_outputs] at hit
    exact nodeOutputsTypes_types env aC fC mC hcf houdiniOutputs it hit

/-- Sequencing preserves a decomposition whose head is the session item
and whose tail satisfies a predicate that also holds for every item of
the routine just run. -/
theorem stepRun_items_ext {prev : SessionOut} {r : ROut} {a : Item}
    {P : Item → Prop}
    (hprev : ∃ l, prev.items = a :: l ∧ ∀ it ∈ l, P it)
    (hr : ∀ it ∈ r.items, P it) :
    ∃ l, (stepRun prev r).items = a :: l ∧ ∀ it ∈ l, P it := by
  obtain ⟨l, hl, hP⟩ := hprev
  unfold stepRun
  cases hexc : prev.exc with
  | some e => exact ⟨l, hl, hP⟩
  | none =>
    refine ⟨l ++ r.items, by simp [hl], ?_⟩
    intro it hit
    rcases List.mem_append.mp hit with h | h
    · exact hP it h
    · exact hr it h

/-- C10: assuming the base collector never hands back an item typed as
a session, every process_current_session invocation creates the session
item first, it is the only item of type houdini.session, its display
name is the hip file name when the session path is non-empty and the
literal Current Houdini Session otherwise, and it carries a
work_template property exactly when the Work Template setting is
configured. -/
theorem C10_single_session_item_first (env : Env) (settings : Option String)
    (hcf : ∀ p b, (env.collect_file p b).itemType ≠ "houdini.session") :
    (∃ l, (process_current_session env settings).items =
        (collect_current_houdini_session env settings).1 :: l ∧
        ∀ it ∈ l, it.itemType ≠ "houdini.session") ∧
    (collect_current_houdini_session env settings).1.itemType =
      "houdini.session" ∧
    ((process_current_session env settings).items.filter
       (fun it => it.itemType == "houdini.session")) =
      [(collect_current_houdini_session env settings).1] ∧
    (collect_current_houdini_session env settings).1.name =
      (if env.hipFilePath == "" then "Current Houdini Session"
       else env.util_filename env.hipFilePath) ∧
    (collect_current_houdini_session env settings).1.props =
      (match settings with
       | some v => [("work_template", PropVal.tmpl (env.get_template_by_name v))]
       | none => []) := by
  have hty : (collect_current_houdini_session env settings).1.itemType =
      "houdini.session" := by
    cases settings <;> rfl
  have hr := routines_types env hcf
  have hdec : ∃ l, (process_current_session env settings).items =
      (collect_current_houdini_session env settings).1 :: l ∧
      ∀ it ∈ l, it.itemType ≠ "houdini.session" := by
    simp only [process_current_session]
    refine stepRun_items_ext (stepRun_items_ext (stepRun_items_ext
      (stepRun_items_ext (stepRun_items_ext (stepRun_items_ext
      (stepRun_items_ext (stepRun_items_ext (stepRun_items_ext
      ⟨[], rfl, by simp⟩
      hr.1) hr.2.1) hr.2.2.1) hr.2.2.2.1) hr.2.2.2.2.1) hr.2.2.2.2.2.1)
      hr.2.2.2.2.2.2.1) hr.2.2.2.2.2.2.2.1) (hr.2.2.2.2.2.2.2.2 _ _ _)
  refine ⟨hdec, hty, ?_, ?_, ?_⟩
  · obtain ⟨l, hl, hP⟩ := hdec
    rw [hl]
    rw [List.filter_cons_of_pos (by simp [hty])]
    have : l.filter (fun it => it.itemType == "houdini.session") = [] := by
      rw [List.filter_eq_nil_iff]
      intro it hit
      simpa using hP it hit
    rw [this]
  · cases settings <;> rfl
  · cases settings <;> rfl

/-- Witness for C10 at the live karma environment. -/
theorem C10_single_session_item_first_witness :
    ((process_current_session envKarmaLive none).items.filter
       (fun it => it.itemType == "houdini.session")) =
      [(collect_current_houdini_session envKarmaLive none).1] ∧
    (collect_current_houdini_session envKarmaLive none).1.name =
      "Current Houdini Session" :=
  ⟨(C10_single_session_item_first envKarmaLive none
      (fun _ _ => by simp [envKarmaLive, env0, baseItem])).2.2.1,
   (C10_single_session_item_first envKarmaLive none
      (fun _ _ => by simp [envKarmaLive, env0, baseItem])).2.2.2.1⟩

/-- The guard discipline of a collector trace, relative to the set of
output paths for which a successful existence check has already been
seen: every existence check tests either the output path itself or that
path with dollar-F4 replaced by a zero-padded frame number, and every
base-collector call is for a path whose check already succeeded. -/
def guarded (seen : List String) : List Ev → Prop
  | [] => True
  | Ev.checkExists o c pr :: rest =>
      (c = o ∨ ∃ ff : Int, c = pyReplace o "$F4" (fmt04 ff)) ∧
      guarded (if pr then o :: seen else seen) rest
  | Ev.collectFile p :: rest => p ∈ seen ∧ guarded seen rest
  | _ :: rest => guarded seen rest

/-- A trace that is guarded from any seen set composes on the right of
any guarded trace. -/
theorem guarded_append_all : ∀ a (s : List String) b, guarded s a →
    (∀ s', guarded s' b) → guarded s (a ++ b) := by
  intro a
  induction a with
  | nil =>
    intro s b _ hb
    exact hb s
  | cons e rest ih =>
    intro s b ha hb
    cases e with
    | checkExists o c pr =>
      exact ⟨ha.1, ih _ _ ha.2 hb⟩
    | collectFile p =>
      exact ⟨ha.1, ih _ _ ha.2 hb⟩
    | checkApp x y => exact ih _ _ ha hb
    | checkEnvVar x y => exact ih _ _ ha hb
    | getNodes x => exact ih _ _ ha hb
    | getTemplate x y => exact ih _ _ ha hb
    | resolvePath x => exact ih _ _ ha hb
    | decorate x => exact ih _ _ ha hb
    | log x y => exact ih _ _ ha hb
    | setFlag x => exact ih _ _ ha hb
    | createItem x => exact ih _ _ ha hb
    | queryPublishedStatus x y => exact ih _ _ ha hb
    | queryOutputRange x => exact ih _ _ ha hb

/-- The cache node loop is guarded from any seen set. -/
theorem cacheNodeLoop_guarded (env : Env) (app : TkNodeApp) :
    ∀ nodes s, guarded s (cacheNodeLoop env app nodes).2 := by
  intro nodes
  induction nodes with
  | nil => intro s; simp [cacheNodeLoop, guarded]
  | cons n rest ih =>
    intro s
    by_cases hp : app.get_output_path n ∈ env.fs
    · cases hw : app.get_work_file_template with
      | none =>
        cases hpt : app.get_publish_file_template with
        | none =>
          simpa [cacheNodeLoop, guarded, hp, hw, hpt] using
            ih (app.get_output_path n :: s)
        | some pt =>
          simpa [cacheNodeLoop, guarded, hp, hw, hpt] using
            ih (app.get_output_path n :: s)
      | some wt =>
        cases hpt : app.get_publish_file_template with
        | none =>
          simpa [cacheNodeLoop, guarded, hp, hw, hpt] using
            ih (app.get_output_path n :: s)
        | some pt =>
          simpa [cacheNodeLoop, guarded, hp, hw, hpt] using
            ih (app.get_output_path n :: s)
    · simpa [cacheNodeLoop, guarded, hp] using ih s

/-- The usdrop node loop is guarded from any seen set. -/
theorem usdropNodeLoop_guarded (env : Env) (app : TkNodeApp) :
    ∀ nodes s, guarded s (usdropNodeLoop env app nodes).2 := by
  intro nodes
  induction nodes with
  | nil => intro s; simp [usdropNodeLoop, guarded]
  | cons n rest ih =>
    intro s
    by_cases hp : app.get_output_path n ∈ env.fs
    · cases hw : app.get_work_file_template with
      | none =>
        cases hpt : app.get_publish_file_template with
        | none =>
          simpa [usdropNodeLoop, guarded, hp, hw, hpt] using
            ih (app.get_output_path n :: s)
        | some pt =>
          simpa [usdropNodeLoop, guarded, hp, hw, hpt] using
            ih (app.get_output_path n :: s)
      | some wt =>
        cases hpt : app.get_publish_file_template with
        | none =>
          simpa [usdropNodeLoop, guarded, hp, hw, hpt] using
            ih (app.get_output_path n :: s)
        | some pt =>
          simpa [usdropNodeLoop, guarded, hp, hw, hpt] using
            ih (app.get_output_path n :: s)
    · simpa [usdropNodeLoop, guarded, hp] using ih s

/-- The alembic node loop is guarded from any seen set. -/
theorem alembicNodeLoop_guarded (env : Env) (app : TkNodeApp) :
    ∀ nodes s, guarded s (alembicNodeLoop env app nodes).2 := by
  intro nodes
  induction nodes with
  | nil => intro s; simp [alembicNodeLoop, guarded]
  | cons n rest ih =>
    intro s
    by_cases hp : app.get_output_path n ∈ env.fs
    · cases hw : app.get_work_file_template with
      | none =>
        simpa [alembicNodeLoop, guarded, hp, hw] using
          ih (app.get_output_path n :: s)
      | some wt =>
        simpa [alembicNodeLoop, guarded, hp, hw] using
          ih (app.get_output_path n :: s)
    · simpa [alembicNodeLoop, guarded, hp] using ih s

/-- The fbx node loop is guarded from any seen set. -/
theorem fbxNodeLoop_guarded (env : Env) (app : TkNodeApp) :
    ∀ nodes s, guarded s (fbxNodeLoop env app nodes).2 := by
  intro nodes
  induction nodes with
  | nil => intro s; simp [fbxNodeLoop, guarded]
  | cons n rest ih =>
    intro s
    by_cases hp : app.get_output_path n ∈ env.fs
    · cases hw : app.get_work_file_template with
      | none =>
        simpa [fbxNodeLoop, guarded, hp, hw] using
          ih (app.get_output_path n :: s)
      | some wt =>
        simpa [fbxNodeLoop, guarded, hp, hw] using
          ih (app.get_output_path n :: s)
    · simpa [fbxNodeLoop, guarded, hp] using ih s

/-- The mantra node loop is guarded from any seen set. -/
theorem mantraNodeLoop_guarded (env : Env) (app : TkNodeApp) :
    ∀ nodes s, guarded s (mantraNodeLoop env app nodes).2 := by
  intro nodes
  induction nodes with
  | nil => intro s; simp [mantraNodeLoop, guarded]
  | cons n rest ih =>
    intro s
    by_cases hp : app.get_output_path n ∈ env.fs
    · cases hw : app.get_work_file_template with
      | none =>
        simpa [mantraNodeLoop, guarded, hp, hw] using
          ih (app.get_output_path n :: s)
      | some wt =>
        simpa [mantraNodeLoop, guarded, hp, hw] using
          ih (app.get_output_path n :: s)
    · simpa [mantraNodeLoop, guarded, hp] using ih s

/-- The arnold aov loop is guarded from any seen set. -/
theorem arnoldAovLoop_guarded (env : Env) (work_template : Option String) :
    ∀ aovs s, guarded s (arnoldAovLoop env work_template aovs).2 := by
  intro aovs
  induction aovs with
  | nil => intro s; simp [arnoldAovLoop, guarded]
  | cons aov rest ih =>
    intro s
    by_cases hp : aov.2 ∈ env.fs
    · cases hw : work_template with
      | none => simpa [arnoldAovLoop, guarded, hp, hw] using ih (aov.2 :: s)
      | some wt => simpa [arnoldAovLoop, guarded, hp, hw] using ih (aov.2 :: s)
    · simpa [arnoldAovLoop, guarded, hp] using ih s

/-- The arnold node loop is guarded from any seen set. -/
theorem arnoldNodeLoop_guarded (env : Env) (app : ArnoldApp) (ff lf : Int) :
    ∀ nodes s, guarded s (arnoldNodeLoop env app ff lf nodes).2.1 := by
  intro nodes
  induction nodes with
  | nil => intro s; simp [arnoldNodeLoop, guarded]
  | cons n rest ih =>
    intro s
    by_cases hp : app.handler_getOutputPath n ∈ env.fs
    · cases hd : arnoldAovDict n (app.handler_getDifferentFileAOVs n) [] with
      | error e =>
        simp [arnoldNodeLoop, guarded, hp, hd]
      | ok aovs =>
        simp only [arnoldNodeLoop, hd]
        simp [guarded, hp]
        exact guarded_append_all _ _ _
          (arnoldAovLoop_guarded env app.get_work_file_template aovs
            (app.handler_getOutputPath n :: s))
          (fun s' => by simpa [guarded] using ih s')
    · simpa [arnoldNodeLoop, guarded, hp] using ih s

/-- The renderman path loop is guarded from any seen set. -/
theorem rendermanPathLoop_guarded (env : Env) (app : RenderApp) (n : HouNode)
    (ff lf : Int) : ∀ paths s, guarded s (rendermanPathLoop env app n ff lf paths).2 := by
  intro paths
  induction paths with
  | nil => intro s; simp [rendermanPathLoop, guarded]
  | cons p rest ih =>
    intro s
    by_cases hx : pyEndsWith p ".xml"
    · simpa [rendermanPathLoop, hx] using ih s
    · by_cases hfs : pyReplace p "$F4" (fmt04 ff) ∈ env.fs
      · by_cases hpub : app.get_published_status n = true
        · simp [rendermanPathLoop, guarded, hx, hfs, hpub]
          exact ⟨Or.inr ⟨ff, rfl⟩, ih (p :: s)⟩
        · simp [rendermanPathLoop, guarded, hx, hfs, hpub]
          exact ⟨Or.inr ⟨ff, rfl⟩, ih (p :: s)⟩
      · simp [rendermanPathLoop, guarded, hx, hfs]
        exact ⟨Or.inr ⟨ff, rfl⟩, ih s⟩

/-- The renderman node loop is guarded from any seen set. -/
theorem rendermanNodeLoop_guarded (env : Env) (app : RenderApp) :
    ∀ nodes s, guarded s (rendermanNodeLoop env app nodes).2 := by
  intro nodes
  induction nodes with
  | nil => intro s; simp [rendermanNodeLoop, guarded]
  | cons n rest ih =>
    intro s
    cases hq : app.get_output_paths n with
    | error e => simpa [rendermanNodeLoop, guarded, hq] using ih s
    | ok paths =>
      simp [rendermanNodeLoop, guarded, hq]
      exact guarded_append_all _ _ _
        (rendermanPathLoop_guarded env app n _ _ paths s) (fun s' => ih s')

/-- The karma path loop is guarded from any seen set. -/
theorem karmaPathLoop_guarded (env : Env) (app : RenderApp) (n : HouNode)
    (ff lf : Int) : ∀ paths s, guarded s (karmaPathLoop env app n ff lf paths).2 := by
  intro paths
  induction paths with
  | nil => intro s; simp [karmaPathLoop, guarded]
  | cons p rest ih =>
    intro s
    by_cases hx : pyEndsWith p ".xml"
    · simpa [karmaPathLoop, hx] using ih s
    · by_cases hfs : pyReplace p "$F4" (fmt04 ff) ∈ env.fs
      · by_cases hpub : app.get_published_status n = true
        · simp [karmaPathLoop, guarded, hx, hfs, hpub]
          exact ⟨Or.inr ⟨ff, rfl⟩, ih (p :: s)⟩
        · simp [karmaPathLoop, guarded, hx, hfs, hpub]
          exact ⟨Or.inr ⟨ff, rfl⟩, ih (p :: s)⟩
      · simp [karmaPathLoop, guarded, hx, hfs]
        exact ⟨Or.inr ⟨ff, rfl⟩, ih s⟩

/-- The karma node loop is guarded from any seen set. -/
theorem karmaNodeLoop_guarded (env : Env) (app : RenderApp) :
    ∀ nodes s, guarded s (karmaNodeLoop env app nodes).2 := by
  intro nodes
  induction nodes with
  | nil => intro s; simp [karmaNodeLoop, guarded]
  | cons n rest ih =>
    intro s
    cases hq : app.get_output_paths n with
    | error e => simpa [karmaNodeLoop, guarded, hq] using ih s
    | ok paths =>
      simp [karmaNodeLoop, guarded, hq]
      exact guarded_append_all _ _ _
        (karmaPathLoop_guarded env app n _ _ paths s) (fun s' => ih s')

/-- The generic output node loop is guarded from any seen set. -/
theorem nodeOutputsNodeLoop_guarded (env : Env) (node_type path_parm_name : String) :
    ∀ nodes s, guarded s (nodeOutputsNodeLoop env node_type path_parm_name nodes).2.1 := by
  intro nodes
  induction nodes with
  | nil => intro s; simp [nodeOutputsNodeLoop, guarded]
  | cons n rest ih =>
    intro s
    cases hparm : n.parm path_parm_name with
    | none => simp [nodeOutputsNodeLoop, guarded, hparm]
    | some path =>
      by_cases hp : path ∈ env.fs
      · simpa [nodeOutputsNodeLoop, guarded, hparm, hp] using ih (path :: s)
      · simpa [nodeOutputsNodeLoop, guarded, hparm, hp] using ih s

/-- The output-table iteration is guarded from any seen set. -/
theorem nodeOutputsTypes_guarded (env : Env) (aC fC mC : Bool) :
    ∀ ts s, guarded s (nodeOutputsTypes env aC fC mC ts).2.1 := by
  intro ts
  induction ts with
  | nil => intro s; simp [nodeOutputsTypes, guarded]
  | cons t rest ih =>
    intro s
    have hstep : ∀ s', guarded s' (nodeOutputsTypeStep env aC fC mC t.1 t.2).2.1 := by
      intro s'
      unfold nodeOutputsTypeStep
      by_cases h1 : t.1 == "alembic" && aC
      · simp [h1, guarded]
      · by_cases h2 : t.1 == "fbx" && fC
        · simp [h1, h2, guarded]
        · by_cases h3 : t.1 == "ifd" && mC
          · simp [h1, h2, h3, guarded]
          · cases hnt : env.houNodeType t.1 with
            | none => simp [h1, h2, h3, hnt, guarded]
            | some ns =>
              simp only [h1, h2, h3, hnt]
              simp
              exact nodeOutputsNodeLoop_guarded env t.1 t.2 ns s'
    simp only [nodeOutputsTypes]
    cases hexc : (nodeOutputsTypeStep env aC fC mC t.1 t.2).2.2 with
    | some e =>
      simp [hexc]
      exact hstep s
    | none =>
      simp [hexc]
      exact guarded_append_all _ _ _ (hstep s) (fun s' => ih s')

/-- The session-item step is guarded: it calls no base collector. -/
theorem session_guarded (env : Env) (settings : Option String) :
    ∀ s, guarded s (collect_current_houdini_session env settings).2 := by
  intro s
  cases settings <;> simp [collect_current_houdini_session, guarded]

/-- Every collection routine produces a trace guarded from any seen
set: each of its base-collector calls follows a successful existence
check on the same output path within the routine itself. -/
theorem routines_guarded (env : Env) :
    (∀ s, guarded s (collect_tk_alembicnodes env).events) ∧
    (∀ s, guarded s (collect_tk_fbxnodes env).events) ∧
    (∀ s, guarded s (collect_tk_mantranodes env).events) ∧
    (∀ s, guarded s (collect_tk_arnoldnodes env).events) ∧
    (∀ s, guarded s (collect_tk_rendermannodes env).events) ∧
    (∀ s, guarded s (collect_tk_karmanodes env).events) ∧
    (∀ s, guarded s (collect_tk_cachenodes env).events) ∧
    (∀ s, guarded s (collect_tk_usdropnodes env).events) ∧
    (∀ aC fC mC s, guarded s (collect_node_outputs env aC fC mC).events) := by
  refine ⟨?_, ?_, ?_, ?_, ?_, ?_, ?_, ?_, ?_⟩
  · intro s
    unfold collect_tk_alembicnodes
    cases env.alembicApp with
    | none => simp [guarded]
    | some app =>
      cases hq : app.get_nodes with
      | error e => cases e <;> simp [hq, guarded]
      | ok nodes =>
        simp [hq, guarded]
        exact alembicNodeLoop_guarded env app nodes s
  · intro s
    unfold collect_tk_fbxnodes
    cases env.fbxApp with
    | none => simp [guarded]
    | some app =>
      cases hq : app.get_nodes with
      | error e => cases e <;> simp [hq, guarded]
      | ok nodes =>
        simp [hq, guarded]
        exact fbxNodeLoop_guarded env app nodes s
  · intro s
    unfold collect_tk_mantranodes
    cases env.mantraApp with
    | none => simp [guarded]
    | some app =>
      cases hq : app.get_nodes with
      | error e => cases e <;> simp [hq, guarded]
      | ok nodes =>
        simp [hq, guarded]
        exact mantraNodeLoop_guarded env app nodes s
  · intro s
    unfold collect_tk_arnoldnodes
    cases env.arnoldApp with
    | none => simp [guarded]
    | some app =>
      by_cases hh : pyTruthy (env.getenv "HTOA")
      · cases hq : app.handler_getNodes with
        | error e => simp [hh, hq, guarded]
        | ok nodes =>
          simp [hh, hq, guarded]
          exact arnoldNodeLoop_guarded env app env.playbackRange.1
            env.playbackRange.2 nodes s
      · simp [hh, guarded]
  · intro s
    unfold collect_tk_rendermannodes
    cases env.rendermanApp with
    | none => simp [guarded]
    | some app =>
      by_cases hr : pyTruthy (env.getenv "RMANTREE")
      · cases hq : app.get_all_nodes with
        | error e => simp [hr, hq, guarded]
        | ok nodes =>
          simp [hr, hq, guarded]
          exact rendermanNodeLoop_guarded env app nodes s
      · simp [hr, guarded]
  · intro s
    unfold collect_tk_karmanodes
    cases env.karmaApp with
    | none => simp [guarded]
    | some app =>
      cases hq : app.get_all_nodes with
      | error e => simp [hq, guarded]
      | ok nodes =>
        simp [hq, guarded]
        exact karmaNodeLoop_guarded env app nodes s
  · intro s
    unfold collect_tk_cachenodes
    cases env.cachenodeApp with
    | none => simp [guarded]
    | some app =>
      cases hq : app.get_nodes with
      | error e => cases e <;> simp [hq, guarded]
      | ok nodes =>
        simp [hq, guarded]
        exact cacheNodeLoop_guarded env app nodes s
  · intro s
    unfold collect_tk_usdropnodes
    cases env.usdropApp with
    | none => simp [guarded]
    | some app =>
      cases hq : app.get_nodes with
      | error e => simp [hq, guarded]
      | ok nodes =>
        simp [hq, guarded]
        exact usdropNodeLoop_guarded env app nodes s
  · intro aC fC mC s
    simp only [collect_node_outputs]
    exact nodeOutputsTypes_guarded env aC fC mC houdiniOutputs s

/-- Sequencing preserves the guard discipline. -/
theorem stepRun_guarded {prev : SessionOut} {r : ROut}
    (hp : ∀ s, guarded s prev.events) (hr : ∀ s, guarded s r.events) :
    ∀ s, guarded s (stepRun prev r).events := by
  intro s
  unfold stepRun
  cases hexc : prev.exc with
  | some e => exact hp s
  | none => exact guarded_append_all _ s _ (hp s) hr

/-- C1: in every collection routine and in a whole
process_current_session trace, each call to the base-class
_collect_file is preceded by a successful on-disk existence check
recorded for the very output path being collected, and every existence
check tests either that path itself or, as in the renderman and karma
collectors, the path with dollar-F4 replaced by a zero-padded first
frame; a node whose path fails the check contributes no such call. -/
theorem C1_collect_file_guarded_by_existence (env : Env)
    (settings : Option String) :
    (∀ s, guarded s (collect_tk_alembicnodes env).events) ∧
    (∀ s, guarded s (collect_tk_fbxnodes env).events) ∧
    (∀ s, guarded s (collect_tk_mantranodes env).events) ∧
    (∀ s, guarded s (collect_tk_arnoldnodes env).events) ∧
    (∀ s, guarded s (collect_tk_rendermannodes env).events) ∧
    (∀ s, guarded s (collect_tk_karmanodes env).events) ∧
    (∀ s, guarded s (collect_tk_cachenodes env).events) ∧
    (∀ s, guarded s (collect_tk_usdropnodes env).events) ∧
    (∀ aC fC mC s, guarded s (collect_node_outputs env aC fC mC).events) ∧
    guarded [] (process_current_session env settings).events := by
  have hr := routines_guarded env
  refine ⟨hr.1, hr.2.1, hr.2.2.1, hr.2.2.2.1, hr.2.2.2.2.1, hr.2.2.2.2.2.1,
          hr.2.2.2.2.2.2.1, hr.2.2.2.2.2.2.2.1, hr.2.2.2.2.2.2.2.2, ?_⟩
  simp only [process_current_session]
  exact stepRun_guarded (stepRun_guarded (stepRun_guarded (stepRun_guarded
    (stepRun_guarded (stepRun_guarded (stepRun_guarded (stepRun_guarded
    (stepRun_guarded (session_guarded env settings)
    hr.1) hr.2.1) hr.2.2.1) hr.2.2.2.1) hr.2.2.2.2.1) hr.2.2.2.2.2.1)
    hr.2.2.2.2.2.2.1) hr.2.2.2.2.2.2.2.1) (hr.2.2.2.2.2.2.2.2 _ _ _) []

end TkHoudini
